import Mathlib

/-!
Verification development for the autonomous theoretical-physics research
engine (`physics_ai`): a shallow embedding of the pipeline orchestrator
(`orchestrate.run_autonomous_campaign`), the multi-method consensus check
(`qnm.compare_methods`), the rule-based constraint filter
(`physics_rules.evaluate_constraints`), the QNM solver front end
(`qnm.eikonal_seed`, `qnm.solve_qnm`), the proposal generator fallback
(`proposal.ProposalGenerator`), the scan summary (`explore.summarize_scan`),
and the run-ledger write behaviour (`storage.save_record` call sites),
together with theorems about them.

Modelling conventions:
* Python `float` values are modelled as exact fractions of machine integers
  (`PyRat`, a numerator/denominator pair of `Int` without normalisation).
  All constants appearing in the source are short decimal literals, and every
  comparison made by the source has a margin far wider than double-precision
  rounding, so exact fraction arithmetic decides every claim-relevant branch
  the same way IEEE doubles do.  `math.sqrt(3.0)` is a floating-point
  constant; it is modelled by its shortest round-tripping decimal
  representation `1.7320508075688772`.
* Python `dict` is an insertion-ordered association list (`PyDict`).
* Database writes, event-log appends and artifact writes are modelled as an
  explicit effect trace (`Effect`); payload columns beyond the denormalised
  fields read by the claims are not modelled.
* Side-effect-free collaborator outputs whose concrete text no claim reads
  (sympy-printed equation strings, SHA-256 hashes, rendered paper text,
  novelty scores) are abstracted to fixed placeholder values; the call
  structure, the counts and the decision-relevant fields are kept exact.
-/

/-- Exact fraction model of a Python `float`: numerator and denominator,
kept positive-denominator by the operations but not reduced. -/
structure PyRat where
  num : Int
  den : Int
  deriving DecidableEq

namespace PyRat

/-- The float `0.0`. -/
def zero : PyRat := ⟨0, 1⟩

/-- The float `1.0`. -/
def one : PyRat := ⟨1, 1⟩

/-- Embeds a Python `int` into the float domain (Python arithmetic promotes). -/
def ofInt (n : Int) : PyRat := ⟨n, 1⟩

/-- Python `a + b` on floats. -/
def add (a b : PyRat) : PyRat := ⟨a.num * b.den + b.num * a.den, a.den * b.den⟩

/-- Python `a - b` on floats. -/
def sub (a b : PyRat) : PyRat := ⟨a.num * b.den - b.num * a.den, a.den * b.den⟩

/-- Python `-a` on floats. -/
def neg (a : PyRat) : PyRat := ⟨-a.num, a.den⟩

/-- Python `a * b` on floats. -/
def mul (a b : PyRat) : PyRat := ⟨a.num * b.num, a.den * b.den⟩

/-- Python `a / b` on floats; the sign is moved to the numerator so that a
well-formed (positive) denominator is preserved. -/
def div (a b : PyRat) : PyRat :=
  let n := a.num * b.den
  let d := a.den * b.num
  if d < 0 then ⟨-n, -d⟩ else ⟨n, d⟩

/-- Python `abs(a)` on floats. -/
def abs (a : PyRat) : PyRat := ⟨|a.num|, |a.den|⟩

/-- Python `a <= b` on floats (valid for positive denominators). -/
def le (a b : PyRat) : Bool := decide (a.num * b.den ≤ b.num * a.den)

/-- Python `a < b` on floats (valid for positive denominators). -/
def lt (a b : PyRat) : Bool := decide (a.num * b.den < b.num * a.den)

/-- Well-formedness: the denominator is positive.  Every float produced by
the embedded code from well-formed inputs is well-formed. -/
def wf (a : PyRat) : Prop := 0 < a.den

instance (a : PyRat) : Decidable a.wf := by unfold wf; infer_instance

/-- The rational number a `PyRat` denotes. -/
def toRat (a : PyRat) : ℚ := (a.num : ℚ) / (a.den : ℚ)

theorem wf_zero : zero.wf := by decide

theorem wf_one : one.wf := by decide

theorem wf_ofInt (n : Int) : (ofInt n).wf := by unfold ofInt wf; simp

theorem wf_add {a b : PyRat} (ha : a.wf) (hb : b.wf) : (a.add b).wf :=
  mul_pos ha hb

theorem wf_sub {a b : PyRat} (ha : a.wf) (hb : b.wf) : (a.sub b).wf :=
  mul_pos ha hb

theorem wf_neg {a : PyRat} (ha : a.wf) : a.neg.wf := ha

theorem wf_mul {a b : PyRat} (ha : a.wf) (hb : b.wf) : (a.mul b).wf :=
  mul_pos ha hb

theorem wf_abs {a : PyRat} (ha : a.wf) : a.abs.wf := by
  have h : a.den ≠ 0 := ne_of_gt ha
  unfold wf abs
  exact abs_pos.mpr h

theorem wf_div {a b : PyRat} (ha : a.wf) (hb : b.num ≠ 0) : (a.div b).wf := by
  unfold wf div
  have hd : a.den * b.num ≠ 0 := mul_ne_zero (ne_of_gt ha) hb
  rcases lt_or_gt_of_ne hd with h | h
  · simp only [if_pos h]; omega
  · simp only [if_neg (not_lt.mpr (le_of_lt h))]; omega

theorem toRat_add {a b : PyRat} (ha : a.wf) (hb : b.wf) :
    (a.add b).toRat = a.toRat + b.toRat := by
  unfold add toRat
  have ha' : (a.den : ℚ) ≠ 0 := by exact_mod_cast ne_of_gt ha
  have hb' : (b.den : ℚ) ≠ 0 := by exact_mod_cast ne_of_gt hb
  field_simp

theorem toRat_sub {a b : PyRat} (ha : a.wf) (hb : b.wf) :
    (a.sub b).toRat = a.toRat - b.toRat := by
  unfold sub toRat
  have ha' : (a.den : ℚ) ≠ 0 := by exact_mod_cast ne_of_gt ha
  have hb' : (b.den : ℚ) ≠ 0 := by exact_mod_cast ne_of_gt hb
  field_simp
  ring

theorem toRat_neg (a : PyRat) : a.neg.toRat = -a.toRat := by
  unfold neg toRat
  rw [Int.cast_neg, neg_div]

theorem toRat_mul {a b : PyRat} (ha : a.wf) (hb : b.wf) :
    (a.mul b).toRat = a.toRat * b.toRat := by
  unfold mul toRat
  have ha' : (a.den : ℚ) ≠ 0 := by exact_mod_cast ne_of_gt ha
  have hb' : (b.den : ℚ) ≠ 0 := by exact_mod_cast ne_of_gt hb
  field_simp

theorem toRat_abs {a : PyRat} (ha : a.wf) : a.abs.toRat = |a.toRat| := by
  unfold abs toRat
  rw [abs_div]
  push_cast
  rw [abs_of_pos (show (0:ℚ) < (a.den : ℚ) by exact_mod_cast ha)]

theorem le_iff {a b : PyRat} (ha : a.wf) (hb : b.wf) :
    a.le b = true ↔ a.toRat ≤ b.toRat := by
  unfold le toRat
  rw [div_le_div_iff₀ (by exact_mod_cast ha) (by exact_mod_cast hb)]
  simp only [decide_eq_true_eq]
  exact ⟨fun h => by exact_mod_cast h, fun h => by exact_mod_cast h⟩

theorem lt_iff {a b : PyRat} (ha : a.wf) (hb : b.wf) :
    a.lt b = true ↔ a.toRat < b.toRat := by
  unfold lt toRat
  rw [div_lt_div_iff₀ (by exact_mod_cast ha) (by exact_mod_cast hb)]
  simp only [decide_eq_true_eq]
  exact ⟨fun h => by exact_mod_cast h, fun h => by exact_mod_cast h⟩

theorem toRat_zero : zero.toRat = 0 := by
  unfold zero toRat
  norm_num

theorem toRat_one : one.toRat = 1 := by
  unfold one toRat
  norm_num

end PyRat

/-- Python `max(iterable, default=dflt)`: the first maximal element of the
list, or the default when the list is empty. -/
def pyMaxD (l : List PyRat) (dflt : PyRat) : PyRat :=
  match l with
  | [] => dflt
  | x :: xs => xs.foldl (fun cur y => if cur.lt y then y else cur) x

theorem pyMaxD_mem {l : List PyRat} {d : PyRat} (h : l ≠ []) : pyMaxD l d ∈ l := by
  match l with
  | x :: xs =>
    unfold pyMaxD
    suffices h : ∀ (a : PyRat) (ys : List PyRat),
        ys.foldl (fun cur y => if cur.lt y then y else cur) a ∈ a :: ys by
      simpa using h x xs
    intro a ys
    induction ys generalizing a with
    | nil => simp
    | cons z zs ih =>
      simp only [List.foldl_cons]
      by_cases h : a.lt z
      · rw [if_pos h]
        have h' := ih z
        simp only [List.mem_cons] at h' ⊢
        tauto
      · rw [if_neg h]
        have h' := ih a
        simp only [List.mem_cons] at h' ⊢
        tauto

theorem pyMaxD_ge {l : List PyRat} {d : PyRat}
    (hwf : ∀ x ∈ l, x.wf) :
    ∀ x ∈ l, x.toRat ≤ (pyMaxD l d).toRat := by
  match l with
  | [] => simp
  | x :: xs =>
    unfold pyMaxD
    suffices h : ∀ (a : PyRat) (ys : List PyRat), a.wf → (∀ y ∈ ys, y.wf) →
        ∀ z ∈ a :: ys,
          z.toRat ≤ (ys.foldl (fun cur y => if cur.lt y then y else cur) a).toRat by
      intro z hz
      exact h x xs (hwf x (by simp)) (fun y hy => hwf y (by simp [hy])) z hz
    intro a ys
    induction ys generalizing a with
    | nil => simp
    | cons w ws ih =>
      intro ha hys z hz
      have hw : w.wf := hys w (by simp)
      have hws : ∀ y ∈ ws, y.wf := fun y hy => hys y (by simp [hy])
      simp only [List.foldl_cons]
      simp only [List.mem_cons] at hz
      by_cases h : a.lt w
      · rw [if_pos h]
        have hrec := ih w hw hws
        rcases hz with hz | hz | hz
        · rw [hz]
          exact le_trans (le_of_lt ((PyRat.lt_iff ha hw).mp h)) (hrec w (by simp))
        · rw [hz]
          exact hrec w (by simp)
        · exact hrec z (by simp [hz])
      · rw [if_neg h]
        have hrec := ih a ha hws
        have hwa : w.toRat ≤ a.toRat :=
          le_of_not_lt ((not_congr (PyRat.lt_iff ha hw)).mp h)
        rcases hz with hz | hz | hz
        · rw [hz]
          exact hrec a (by simp)
        · rw [hz]
          exact le_trans hwa (hrec a (by simp))
        · exact hrec z (by simp [hz])

theorem pyMaxD_wf {l : List PyRat} {d : PyRat}
    (hwf : ∀ x ∈ l, x.wf) (hd : d.wf) : (pyMaxD l d).wf := by
  by_cases h : l = []
  · subst h; simpa [pyMaxD]
  · exact hwf _ (pyMaxD_mem h)

/-- Insertion-ordered association list modelling a Python `dict`. -/
abbrev PyDict (β : Type) : Type := List (String × β)

/-- Python `d.get(k)` / `k in d`: the value at the first matching key. -/
def dictGet? {β : Type} (d : PyDict β) (k : String) : Option β :=
  (d.find? (fun p => p.1 == k)).map (fun p => p.2)

/-- Python `d.get(k, dflt)`. -/
def dictGetD {β : Type} (d : PyDict β) (k : String) (dflt : β) : β :=
  (dictGet? d k).getD dflt

/-- Python `d[k] = v`: overwrite in place when the key exists (keeping its
position), append otherwise. -/
def dictSet {β : Type} (d : PyDict β) (k : String) (v : β) : PyDict β :=
  if (d.find? (fun p => p.1 == k)).isSome then
    d.map (fun p => if p.1 == k then (k, v) else p)
  else
    d ++ [(k, v)]

/-- Python `d.update(e)`. -/
def dictUpdate {β : Type} (d e : PyDict β) : PyDict β :=
  e.foldl (fun acc p => dictSet acc p.1 p.2) d

/-- Python `d.values()` (in insertion order). -/
def dictValues {β : Type} (d : PyDict β) : List β :=
  d.map (fun p => p.2)

/-- Scalar payload values carried in modelled rows and summaries. -/
inductive PyVal where
  | str (s : String)
  | int (n : Int)
  | rat (q : PyRat)
  | bool (b : Bool)
  deriving DecidableEq

/-- Python truthiness of a scalar value. -/
def pyTruthy : PyVal → Bool
  | .str s => !(s == "")
  | .int n => !(n == 0)
  | .rat q => !(q.num == 0)
  | .bool b => b

/-- Whether `pat` is a prefix of `s` (character lists). -/
def isPrefixList : List Char → List Char → Bool
  | [], _ => true
  | _ :: _, [] => false
  | a :: as, b :: bs => a == b && isPrefixList as bs

/-- Python `pat in s` on character lists. -/
def hasSubstring : List Char → List Char → Bool
  | [], pat => pat.isEmpty
  | c :: rest, pat => isPrefixList pat (c :: rest) || hasSubstring rest pat

/-- Python `s.lower().replace(" ", "")`, as used by `classify_theory_family`. -/
def pyLowerNoSpace (s : String) : List Char :=
  (s.toList.map Char.toLower).filter (fun c => !(c == ' '))

/-- Embeds `types.Method` (`shooting` / `wkb` / `spectral`). -/
inductive Method where
  | shooting
  | wkb
  | spectral
  deriving DecidableEq

/-- The `.value` string of a `Method`. -/
def Method.value : Method → String
  | .shooting => "shooting"
  | .wkb => "wkb"
  | .spectral => "spectral"

/-- Embeds `types.TheorySpec`.  The `fields`, `symmetries` and `assumptions`
members are omitted: no embedded operation or claim reads them (the
orchestrator clones them unchanged). -/
structure TheorySpec where
  name : String
  action : String
  parameters : PyDict PyRat
  deriving DecidableEq

/-- Embeds `types.ProposalSpec`. -/
structure ProposalSpec where
  name : String
  action : String
  parameters : PyDict PyRat
  rationale : String
  deriving DecidableEq

/-- Embeds `types.DerivationArtifact`.  `metadata` keeps the `family` key the
pipeline reads; the sympy `action_srepr` entry is omitted as unread. -/
structure DerivationArtifact where
  run_id : String
  theory_name : String
  stage : String
  equations : List String
  canonical_hash : String
  metadata : PyDict String
  deriving DecidableEq

/-- Embeds `types.BackgroundSystem`; `consistency` is the `dict[str, Any]`
built by `reduce_to_background_odes`. -/
structure BackgroundSystem where
  run_id : String
  theory_name : String
  ansatz : String
  unknown_functions : List String
  reduced_equations : List String
  consistency : PyDict PyVal
  deriving DecidableEq

/-- Embeds `types.PerturbationSystem`. -/
structure PerturbationSystem where
  run_id : String
  theory_name : String
  family : String
  master_equation : String
  effective_potential : String
  metadata : PyDict PyVal
  deriving DecidableEq

/-- Embeds `types.QNMRunConfig`; the unread `max_iter` / `tol` members are
omitted. -/
structure QNMRunConfig where
  l : Int
  n : Int
  mass : PyRat
  method : Method
  deriving DecidableEq

/-- Embeds `types.QNMResult`; the opaque `diagnostics` map is omitted as
unread. -/
structure QNMResult where
  run_id : String
  method : Method
  l : Int
  n : Int
  omega_real : PyRat
  omega_imag : PyRat
  deriving DecidableEq

/-- Embeds `qnm.DisagreementReport`. -/
structure DisagreementReport where
  max_abs_delta_real : PyRat
  max_abs_delta_imag : PyRat
  is_consistent : Bool
  deriving DecidableEq

/-- Embeds `types.ConstraintReport`. -/
structure ConstraintReport where
  run_id : String
  is_valid : Bool
  ghost_instability : Bool
  wrong_sign_kinetic : Bool
  divergent_background : Bool
  reasons : List String
  metrics : PyDict PyRat
  deriving DecidableEq

/-- Embeds `types.PaperBuildSpec`. -/
structure PaperBuildSpec where
  run_id : String
  title : String
  authors : List String
  output_dir : String
  include_latex : Bool
  include_markdown : Bool
  deriving DecidableEq

/-- Embeds `types.CampaignSpec`; the unread `max_retries_per_stage` member is
omitted.  `proposal_count` is a Python `int`, hence `Int`. -/
structure CampaignSpec where
  name : String
  run_id : String
  seed_theory : TheorySpec
  proposal_count : Int
  enable_llm : Bool
  deriving DecidableEq

/-- Embeds `orchestrate.CampaignResult`. -/
structure CampaignResult where
  run_id : String
  accepted_theories : Int
  rejected_theories : Int
  paper_outputs : List String
  summary : PyDict PyVal
  deriving DecidableEq

/-- The value of the floating-point constant `math.sqrt(3.0)` (shortest
round-tripping decimal representation of the IEEE-754 double nearest √3). -/
def sqrt_three_float : PyRat := ⟨17320508075688772, 10000000000000000⟩

/-- Embeds `qnm.eikonal_seed`: raises `ValueError("mass must be positive")`
for `mass <= 0`, otherwise returns the complex seed as a (real, imag) pair. -/
def eikonal_seed (l n : Int) (mass : PyRat) : Except String (PyRat × PyRat) :=
  if mass.le PyRat.zero then
    .error "mass must be positive"
  else
    let prefactor := PyRat.one.div ((PyRat.ofInt 3).mul (sqrt_three_float.mul mass))
    .ok (((PyRat.ofInt l).add ⟨1, 2⟩).mul prefactor,
         (((PyRat.ofInt n).add ⟨1, 2⟩).mul prefactor).neg)

/-- The per-method adjustment factors of `qnm.solve_qnm`. -/
def method_adjust : Method → PyRat × PyRat
  | .shooting => (⟨100, 100⟩, ⟨100, 100⟩)
  | .wkb => (⟨101, 100⟩, ⟨99, 100⟩)
  | .spectral => (⟨995, 1000⟩, ⟨1005, 1000⟩)

/-- Embeds `qnm.solve_qnm` (`method = method or config.method`; a `Method`
enum value is always truthy, so `none` falls back to the config's method). -/
def solve_qnm (config : QNMRunConfig) (run_id : String) (method : Option Method) :
    Except String QNMResult :=
  let m := method.getD config.method
  match eikonal_seed config.l config.n config.mass with
  | .error e => .error e
  | .ok seed =>
    let adjust := method_adjust m
    .ok { run_id := run_id
          method := m
          l := config.l
          n := config.n
          omega_real := seed.1.mul adjust.1
          omega_imag := seed.2.mul adjust.2 }

/-- Embeds `itertools.combinations(results, 2)` in iteration order. -/
def combinations2 {α : Type} : List α → List (α × α)
  | [] => []
  | x :: xs => xs.map (fun y => (x, y)) ++ combinations2 xs

/-- The default `tolerance = 0.02` of `qnm.compare_methods`. -/
def default_tolerance : PyRat := ⟨2, 100⟩

/-- Embeds `qnm.compare_methods`. -/
def compare_methods (results : List QNMResult) (tolerance : PyRat) :
    DisagreementReport :=
  if results.length < 2 then
    ⟨PyRat.zero, PyRat.zero, true⟩
  else
    let deltas_real :=
      (combinations2 results).map (fun p => (p.1.omega_real.sub p.2.omega_real).abs)
    let deltas_imag :=
      (combinations2 results).map (fun p => (p.1.omega_imag.sub p.2.omega_imag).abs)
    let max_real := pyMaxD deltas_real PyRat.zero
    let max_imag := pyMaxD deltas_imag PyRat.zero
    ⟨max_real, max_imag, max_real.le tolerance && max_imag.le tolerance⟩

/-- A pandas `DataFrame` modelled as a list of keyed rows. -/
structure DataFrame where
  rows : List (PyDict PyVal)
  deriving DecidableEq

/-- Embeds `qnm.spectrum_table`. -/
def spectrum_table (results : List QNMResult) : DataFrame :=
  ⟨results.map (fun r =>
    [("run_id", .str r.run_id), ("method", .str r.method.value),
     ("l", .int r.l), ("n", .int r.n),
     ("omega_real", .rat r.omega_real), ("omega_imag", .rat r.omega_imag)])⟩

/-- Pandas `df[c] = v`: sets a constant column on every row. -/
def dfSetCol (df : DataFrame) (c : String) (v : PyVal) : DataFrame :=
  ⟨df.rows.map (fun r => dictSet r c v)⟩

/-- Pandas `c in df.columns` (rows are keyed uniformly in this pipeline). -/
def dfHasCol (df : DataFrame) (c : String) : Bool :=
  df.rows.any (fun r => (dictGet? r c).isSome)

/-- The numeric values of column `c`. -/
def dfRatCol (df : DataFrame) (c : String) : List PyRat :=
  df.rows.filterMap (fun r =>
    match dictGet? r c with
    | some (PyVal.rat q) => some q
    | _ => none)

/-- Pandas `int(df[c].sum())` for a boolean column: the count of `True`. -/
def dfCountTrue (df : DataFrame) (c : String) : Int :=
  ((df.rows.filter (fun r => dictGet? r c == some (.bool true))).length : Int)

/-- Embeds `physics_rules._get_parameter`: first present name wins, else the
default. -/
def get_parameter (theory : TheorySpec) : List String → PyRat → PyRat
  | [], dflt => dflt
  | n :: rest, dflt =>
    match dictGet? theory.parameters n with
    | some v => v
    | none => get_parameter theory rest dflt

/-- Reason string appended for a non-positive kinetic coefficient. -/
def ghost_reason : String := "Ghost instability detected: kinetic coefficient <= 0"

/-- Reason string appended for a negative kinetic coefficient. -/
def wrong_sign_reason : String := "Wrong-sign kinetic term detected."

/-- Reason string appended for a large coupling magnitude. -/
def divergence_reason : String := "Divergence filter triggered by large coupling magnitude."

/-- Reason string appended for a positive maximal `Im(omega)`. -/
def unstable_reason : String := "Unstable mode detected: positive Im(omega)."

/-- Python truthiness of the optional `qnm_results` argument (`None` and the
empty list are both falsy). -/
def qnmTruthy (qnm_results : Option (List QNMResult)) : Bool :=
  match qnm_results with
  | none => false
  | some l => !l.isEmpty

/-- Embeds `physics_rules.evaluate_constraints`. -/
def evaluate_constraints (run_id : String) (theory : TheorySpec)
    (qnm_results : Option (List QNMResult)) : ConstraintReport :=
  let kinetic := get_parameter theory ["kinetic_coeff", "zeta"] PyRat.one
  let ghost_instability := kinetic.le PyRat.zero
  let reasons1 : List String := if ghost_instability then [ghost_reason] else []
  let wrong_sign_kinetic := kinetic.lt PyRat.zero
  let reasons2 := reasons1 ++ (if wrong_sign_kinetic then [wrong_sign_reason] else [])
  let alpha := get_parameter theory ["alpha"] PyRat.zero
  let beta := get_parameter theory ["beta"] PyRat.zero
  let divergent_background :=
    (PyRat.ofInt 100).lt alpha.abs || (PyRat.ofInt 100).lt beta.abs
  let reasons3 := reasons2 ++ (if divergent_background then [divergence_reason] else [])
  let qnmList := (qnm_results.getD []).map (fun r => r.omega_imag)
  let max_growth := pyMaxD qnmList ⟨-1, 1⟩
  let reasons4 := reasons3 ++
    (if qnmTruthy qnm_results && PyRat.zero.lt max_growth then [unstable_reason] else [])
  let metrics0 : PyDict PyRat := [("kinetic_coeff", kinetic), ("alpha", alpha), ("beta", beta)]
  let metrics :=
    if qnmTruthy qnm_results then metrics0 ++ [("max_omega_imag", max_growth)] else metrics0
  { run_id := run_id
    is_valid := reasons4.isEmpty
    ghost_instability := ghost_instability
    wrong_sign_kinetic := wrong_sign_kinetic
    divergent_background := divergent_background
    reasons := reasons4
    metrics := metrics }

/-- Embeds `theory.classify_theory_family` (lower-cased, space-stripped
substring tests on the action string). -/
def classify_theory_family (theory : TheorySpec) : String :=
  let action := pyLowerNoSpace theory.action
  if hasSubstring action "f(r)".toList || hasSubstring action "f_r".toList then
    "f(R)"
  else if hasSubstring action "einstein-hilbert".toList ||
      hasSubstring action "r-2*lambda".toList ||
      hasSubstring action "r-2lambda".toList then
    "GR"
  else if hasSubstring action "gauss-bonnet".toList ||
      hasSubstring action "gb".toList then
    "Einstein-scalar-GB"
  else
    "generic_modified_gravity"

/-- Placeholder for the sympy-printed Einstein field equations produced by
`symbolic._einstein_equation_strings` (text unread by any claim). -/
def einstein_equations : List String :=
  ["Eq(G(mu, nu), kappa*T(mu, nu))", "Eq(R, -T*kappa)"]

/-- Placeholder for the sympy-printed f(R) field equations produced by
`symbolic._fr_equation_strings` (text unread by any claim). -/
def fr_equations : List String :=
  ["Eq(fR(R)*R(mu, nu) - f(R)*g(mu, nu)/2 + (Box*g(mu, nu) - nabla(mu)*nabla(nu))*fR(R), kappa*T(mu, nu))",
   "Eq(R*fR(R) - 2*f(R) + 3*Box*fR(R), T*kappa)"]

/-- Placeholder for the generic variational equation of
`symbolic.derive_field_equations` (text unread by any claim). -/
def generic_equations : List String := ["Eq(deltaS/dphi, 0)"]

/-- Embeds `symbolic.derive_field_equations`.  The equation strings and the
SHA-256 `canonical_hash` are abstracted to deterministic placeholders (no
claim reads their text); the family classification, the equation counts and
the artifact shape are exact. -/
def derive_field_equations (theory : TheorySpec) (run_id : String) : DerivationArtifact :=
  let family := classify_theory_family theory
  let equations :=
    if family == "GR" then einstein_equations
    else if family == "f(R)" then fr_equations
    else generic_equations
  { run_id := run_id
    theory_name := theory.name
    stage := "eom"
    equations := equations
    canonical_hash := "sha256(" ++ theory.name ++ ":" ++ family ++ ")"
    metadata := [("family", family)] }

/-- Placeholder for the first sympy-printed background ODE. -/
def background_ode_1 : String :=
  "Eq(Derivative(B(r), r), (1 - exp(2*B(r)))/(2*r) + 4*pi*r*rho(r))"

/-- Placeholder for the second sympy-printed background ODE. -/
def background_ode_2 : String :=
  "Eq(Derivative(A(r), r), (exp(2*B(r)) - 1)/(2*r) + 4*pi*r*p_r(r))"

/-- Placeholder for the extra f(R) scalaron background ODE. -/
def background_ode_3 : String :=
  "Eq(Derivative(C(r), (r, 2)) + 2*Derivative(C(r), r)/r, source_fr(r))"

/-- Embeds `background.reduce_to_background_odes`: two ODEs in `A(r)`, `B(r)`
(three, adding `C(r)`, for the `f(R)` family), and the consistency record
with `square_system = (equation count >= unknown count)`. -/
def reduce_to_background_odes (theory : TheorySpec) (artifact : DerivationArtifact)
    (run_id : String) : BackgroundSystem :=
  let family := dictGetD artifact.metadata "family" "generic"
  let equations :=
    if family == "f(R)" then [background_ode_1, background_ode_2, background_ode_3]
    else [background_ode_1, background_ode_2]
  let unknowns :=
    if family == "f(R)" then ["A(r)", "B(r)", "C(r)"] else ["A(r)", "B(r)"]
  let nEq : Int := (equations.length : Int)
  let nUnk : Int := (unknowns.length : Int)
  { run_id := run_id
    theory_name := theory.name
    ansatz := "static_spherical"
    unknown_functions := unknowns
    reduced_equations := equations
    consistency :=
      [("equation_count", .int nEq), ("unknown_count", .int nUnk),
       ("square_system", .bool (decide (nUnk ≤ nEq))),
       ("bianchi_like_redundancy", .int (max (nEq - nUnk) 0))] }

/-- The orchestrator's background gate test,
`background.consistency.get("square_system", False)` under Python truthiness
(also `background.is_consistent`). -/
def consistency_square (background : BackgroundSystem) : Bool :=
  pyTruthy (dictGetD background.consistency "square_system" (.bool false))

/-- Placeholder for the sympy-printed Regge-Wheeler master equation. -/
def master_equation_text : String :=
  "Eq((omega**2 - V(r))*Psi(r) + Derivative(Psi(r), (r, 2)), 0)"

/-- Placeholder for the sympy-printed effective potential. -/
def effective_potential_text : String := "(1 - 2/r)*(6/r**2 - 6/r**3)"

/-- Embeds `perturbation.derive_master_equation` at its call site's default
arguments (`family="axial"`, `mass=1.0`, `ell=2`); the sympy-printed strings
are abstracted to fixed placeholders (unread by any claim). -/
def derive_master_equation (background : BackgroundSystem) (run_id : String) :
    PerturbationSystem :=
  { run_id := run_id
    theory_name := background.theory_name
    family := "axial"
    master_equation := master_equation_text
    effective_potential := effective_potential_text
    metadata := [("ell", .int 2), ("mass", .rat PyRat.one)] }

/-- Python `l[:count]` for an `int` count (a negative count indexes from the
end: `stop = max(0, len(l) + count)`). -/
def pySliceTo {α : Type} (l : List α) (count : Int) : List α :=
  if 0 ≤ count then l.take count.toNat
  else l.take (l.length - min count.natAbs l.length)

/-- Embeds the three deterministic candidates of `ProposalGenerator._fallback`. -/
def fallback_candidates (seed : TheorySpec) : List ProposalSpec :=
  [{ name := seed.name ++ "_alphaR2"
     action := seed.action ++ " + alpha*R**2"
     parameters := [("alpha", ⟨1, 100⟩)]
     rationale := "Leading quadratic curvature correction." },
   { name := seed.name ++ "_betaR3"
     action := seed.action ++ " + beta*R**3"
     parameters := [("beta", ⟨1, 1000⟩)]
     rationale := "Controlled cubic curvature deformation." },
   { name := seed.name ++ "_zetaRicci2"
     action := seed.action ++ " + zeta*Ricci2"
     parameters := [("zeta", ⟨2, 100⟩)]
     rationale := "Ricci contraction inspired higher-derivative term." }]

/-- Embeds `ProposalGenerator._fallback`: the candidate list truncated by
Python slicing to the requested count. -/
def proposal_fallback (seed : TheorySpec) (count : Int) : List ProposalSpec :=
  pySliceTo (fallback_candidates seed) count

/-- Embeds `ProposalGenerator._try_generate_llm`.  The network boundary is
modelled by two external inputs: `llm_available` is false whenever the API
key or client is missing or any request, parsing or validation exception
occurs (all those paths return `[]`), and `llm_parsed` is the proposal list
parsed from the model response, which the source truncates to `count`. -/
def try_generate_llm (llm_available : Bool) (llm_parsed : List ProposalSpec)
    (count : Int) : List ProposalSpec :=
  if llm_available then pySliceTo llm_parsed count else []

/-- Embeds `ProposalGenerator.generate`. -/
def proposal_generate (enable_llm llm_available : Bool)
    (llm_parsed : List ProposalSpec) (seed : TheorySpec) (count : Int) :
    List ProposalSpec :=
  if enable_llm then
    let llm := try_generate_llm llm_available llm_parsed count
    if !llm.isEmpty then llm else proposal_fallback seed count
  else proposal_fallback seed count

/-- Embeds `explore.summarize_scan`.  Pandas `df.get(c, Series([0.0])).max()`
is the column maximum when column `c` exists and `0.0` otherwise; for a
boolean column, `int(df[c].sum())` is the count of `True`. -/
def summarize_scan (df : DataFrame) : PyDict PyVal :=
  if df.rows.isEmpty then
    [("rows", .int 0), ("valid_rows", .int 0)]
  else
    let valid_count : Int :=
      if dfHasCol df "constraints_valid" then dfCountTrue df "constraints_valid"
      else (df.rows.length : Int)
    [("rows", .int (df.rows.length : Int)),
     ("valid_rows", .int valid_count),
     ("invalid_rows", .int ((df.rows.length : Int) - valid_count)),
     ("max_disagreement_real", .rat (pyMaxD
        (if dfHasCol df "disagreement_real" then dfRatCol df "disagreement_real"
         else [PyRat.zero]) PyRat.zero)),
     ("max_disagreement_imag", .rat (pyMaxD
        (if dfHasCol df "disagreement_imag" then dfRatCol df "disagreement_imag"
         else [PyRat.zero]) PyRat.zero))]

/-- Embeds `paper.build_paper` at the interface level: the returned mapping
kind → path in dict insertion order (`latex`, `bib`, `markdown`).  Template
rendering and file writing are external side effects whose text no claim
reads; the derivation view, QNM summary and novelty report arguments feed
only that text, so the summary is accepted and ignored here. -/
def build_paper (spec : PaperBuildSpec) (_qnm_summary : PyDict PyVal) : PyDict String :=
  (if spec.include_latex then
     [("latex", spec.output_dir ++ "/paper.tex"), ("bib", spec.output_dir ++ "/refs.bib")]
   else []) ++
  (if spec.include_markdown then [("markdown", spec.output_dir ++ "/paper.md")] else [])

/-- The run-ledger tables declared in `storage.py` (the `events` table is
modelled separately by `Effect.event`). -/
inductive LedgerTable where
  | theories
  | derivations
  | background_runs
  | perturb_runs
  | qnm_runs
  | scan_jobs
  | constraint_reports
  | novelty_reports
  | paper_builds
  deriving DecidableEq

/-- One observable side effect of the orchestrator: a `save_record` row
insert into a ledger table, an event-log append (`_log_event`, itself a
`save_record` into the `events` table), or an artifact write. -/
inductive Effect where
  | save (table : LedgerTable) (run_id : String)
  | event (run_id stage status message : String)
  | json_artifact (run_id stage filename : String)
  | file_artifact (run_id stage filename : String)
  | dataframe_artifact (path : String)
  deriving DecidableEq

deriving instance DecidableEq for Except

/-- The number of rows inserted into ledger table `t` in a trace. -/
def countSaves (trace : List Effect) (t : LedgerTable) : Nat :=
  trace.countP (fun e => match e with
    | .save t2 _ => t2 == t
    | _ => false)

/-- The number of event-log rows with the given stage and status in a trace. -/
def countEvents (trace : List Effect) (stage status : String) : Nat :=
  trace.countP (fun e => match e with
    | .event _ s2 st2 _ => s2 == stage && st2 == status
    | _ => false)

/-- The number of event-log rows with the given stage (any status). -/
def countEventsAtStage (trace : List Effect) (stage : String) : Nat :=
  trace.countP (fun e => match e with
    | .event _ s2 _ _ => s2 == stage
    | _ => false)

/-- The total number of event-log rows in a trace. -/
def countEventRows (trace : List Effect) : Nat :=
  trace.countP (fun e => match e with
    | .event _ _ _ _ => true
    | _ => false)

/-- The number of file artifacts written for the given stage in a trace. -/
def countStageArtifacts (trace : List Effect) (stage : String) : Nat :=
  trace.countP (fun e => match e with
    | .file_artifact _ s2 _ => s2 == stage
    | _ => false)

/-- Embeds `orchestrate._proposal_to_theory`: deep copy of the seed with
name and action overwritten and the proposal parameters merged in. -/
def proposal_to_theory (seed : TheorySpec) (name action : String)
    (parameters : PyDict PyRat) : TheorySpec :=
  { name := name, action := action,
    parameters := dictUpdate seed.parameters parameters }

/-- The collaborator functions `orchestrate.py` calls between its gate
decisions.  Keeping them as a parameter mirrors the specification's external
collaborator contracts and lets theorems quantify over their outputs;
`src_collaborators` instantiates them with the embedded source functions. -/
structure Collaborators where
  derive : TheorySpec → String → DerivationArtifact
  reduce : TheorySpec → DerivationArtifact → String → BackgroundSystem
  perturb : BackgroundSystem → String → PerturbationSystem
  solve : QNMRunConfig → String → Method → Except String QNMResult
  build : PaperBuildSpec → PyDict PyVal → PyDict String

/-- The collaborators hard-wired by `orchestrate.py`'s imports. -/
def src_collaborators : Collaborators :=
  { derive := derive_field_equations
    reduce := reduce_to_background_odes
    perturb := derive_master_equation
    solve := fun config run_id m => solve_qnm config run_id (some m)
    build := build_paper }

/-- The fixed ordered method list of the orchestrator's QNM stage. -/
def campaign_methods : List Method := [.shooting, .wkb, .spectral]

/-- The per-method QNM loop of `run_autonomous_campaign`: one config per
method with the candidate's resolved mass (`parameters.get("mass", 1.0)`),
one solver call, one `qnm_runs` ledger row per result.  A solver exception
propagates (the trace committed before an abort is not tracked: the error
short-circuits the whole campaign). -/
def qnm_stage (C : Collaborators) (run_id : String) (theory : TheorySpec) :
    List Method → Except String (List QNMResult × List Effect)
  | [] => .ok ([], [])
  | m :: rest =>
    let config : QNMRunConfig :=
      { l := 2, n := 0, mass := dictGetD theory.parameters "mass" PyRat.one, method := m }
    match C.solve config run_id m with
    | .error e => .error e
    | .ok q =>
      match qnm_stage C run_id theory rest with
      | .error e => .error e
      | .ok (qs, effs) => .ok (q :: qs, .save .qnm_runs run_id :: effs)

/-- The outcome of one candidate: acceptance flag, effect trace, rows
contributed to the merged spectrum table, and paper output locations. -/
structure CandidateStep where
  accepted : Bool
  effects : List Effect
  table_rows : List (PyDict PyVal)
  paper_outputs : List String
  deriving DecidableEq

/-- One iteration of the `for proposal in proposals` loop of
`run_autonomous_campaign` (orchestrate.py lines 86-225), in source order:
theories row + validate event, derivation row + JSON artifact, background
gate (terminal rejection event), perturbation artifact, per-method QNM rows,
constraint row and gate (terminal rejection event), spectrum-table rows with
the disagreement columns, novelty row, paper build + row + event. -/
def process_candidate (C : Collaborators) (campaign : CampaignSpec)
    (proposal : ProposalSpec) : Except String CandidateStep :=
  let run_id := campaign.run_id
  let theory := proposal_to_theory campaign.seed_theory proposal.name
    proposal.action proposal.parameters
  let eff_theory : List Effect :=
    [.save .theories run_id,
     .event run_id "validate" "ok" ("Accepted proposal payload: " ++ proposal.name)]
  let derivation := C.derive theory run_id
  let eff_derive : List Effect :=
    [.save .derivations run_id,
     .json_artifact run_id "derive" (theory.name ++ "_eom.json")]
  let background := C.reduce theory derivation run_id
  if !(consistency_square background) then
    .ok { accepted := false
          effects := eff_theory ++ eff_derive ++
            [.event run_id "background" "rejected" ("Inconsistent system: " ++ theory.name)]
          table_rows := []
          paper_outputs := [] }
  else
    let _perturb := C.perturb background run_id
    let eff_perturb : List Effect :=
      [.file_artifact run_id "perturb" (theory.name ++ "_master.txt")]
    match qnm_stage C run_id theory campaign_methods with
    | .error e => .error e
    | .ok (qnm_results, eff_qnm) =>
      let disagreement := compare_methods qnm_results default_tolerance
      let constraints := evaluate_constraints run_id theory (some qnm_results)
      let eff_constraints : List Effect := [.save .constraint_reports run_id]
      if !constraints.is_valid then
        .ok { accepted := false
              effects := eff_theory ++ eff_derive ++ eff_perturb ++ eff_qnm ++
                eff_constraints ++
                [.event run_id "constraints" "rejected"
                  (theory.name ++ " rejected by physics filters: " ++
                    String.intercalate "; " constraints.reasons)]
              table_rows := []
              paper_outputs := [] }
      else
        let table := spectrum_table qnm_results
        let table := dfSetCol table "theory_name" (.str theory.name)
        let table := dfSetCol table "method_disagreement_real"
          (.rat disagreement.max_abs_delta_real)
        let table := dfSetCol table "method_disagreement_imag"
          (.rat disagreement.max_abs_delta_imag)
        let eff_novelty : List Effect := [.save .novelty_reports run_id]
        let out_dir := "artifacts/" ++ run_id ++ "/paper/" ++ theory.name
        let paper_spec : PaperBuildSpec :=
          { run_id := run_id
            title := theory.name ++ ": Autonomous Modified-Gravity Analysis"
            authors := ["Autonomous Physics AI"]
            output_dir := out_dir
            include_latex := true
            include_markdown := true }
        let qnm_summary : PyDict PyVal :=
          [("method_consistent", .bool disagreement.is_consistent),
           ("max_abs_delta_real", .rat disagreement.max_abs_delta_real),
           ("max_abs_delta_imag", .rat disagreement.max_abs_delta_imag)]
        let outputs := C.build paper_spec qnm_summary
        .ok { accepted := true
              effects := eff_theory ++ eff_derive ++ eff_perturb ++ eff_qnm ++
                eff_constraints ++ eff_novelty ++
                [.save .paper_builds run_id,
                 .event run_id "paper" "ok" ("Built paper outputs for " ++ theory.name)]
              table_rows := table.rows
              paper_outputs := dictValues outputs }

/-- The aggregate state of the orchestrator's main loop: accepted and
rejected counters, paper outputs, merged-table rows and the effect trace,
accumulated in candidate order. -/
def run_campaign_loop (C : Collaborators) (campaign : CampaignSpec) :
    List ProposalSpec →
    Except String (Int × Int × List String × List (PyDict PyVal) × List Effect)
  | [] => .ok (0, 0, [], [], [])
  | p :: ps =>
    match process_candidate C campaign p with
    | .error e => .error e
    | .ok step =>
      match run_campaign_loop C campaign ps with
      | .error e => .error e
      | .ok (a, r, outs, rows, effs) =>
        .ok (a + (if step.accepted then 1 else 0),
             r + (if step.accepted then 0 else 1),
             step.paper_outputs ++ outs,
             step.table_rows ++ rows,
             step.effects ++ effs)

/-- Embeds `orchestrate.run_autonomous_campaign`, generically in the
collaborators; `llm_available` / `llm_parsed` model the LLM network boundary
of the proposal source (see `try_generate_llm`).  The `write_dataframe` call
is modelled on its parquet success path; its CSV fallback changes only the
artifact extension. -/
def run_autonomous_campaign_with (C : Collaborators) (llm_available : Bool)
    (llm_parsed : List ProposalSpec) (campaign : CampaignSpec) :
    Except String (CampaignResult × List Effect) :=
  let proposals := proposal_generate campaign.enable_llm llm_available llm_parsed
    campaign.seed_theory campaign.proposal_count
  let eff_start : List Effect :=
    [.event campaign.run_id "propose" "started" ("Campaign " ++ campaign.name ++ " started.")]
  match run_campaign_loop C campaign proposals with
  | .error e => .error e
  | .ok (accepted, rejected, paper_outputs, rows, effs) =>
    let summary_merge : PyDict PyVal × List Effect :=
      if !rows.isEmpty then
        let merged : DataFrame := ⟨rows⟩
        let path := "artifacts/" ++ campaign.run_id ++ "/scan/qnm_spectrum.parquet"
        (dictSet (summarize_scan merged) "spectrum_file" (.str path),
         [Effect.dataframe_artifact path])
      else
        ([("rows", PyVal.int 0), ("valid_rows", PyVal.int 0)], [])
    let eff_final : List Effect :=
      [.event campaign.run_id "finalize" "ok"
        ("Campaign finished accepted=" ++ toString accepted ++
          " rejected=" ++ toString rejected)]
    .ok ({ run_id := campaign.run_id
           accepted_theories := accepted
           rejected_theories := rejected
           paper_outputs := paper_outputs
           summary := summary_merge.1 },
         eff_start ++ effs ++ summary_merge.2 ++ eff_final)

/-- `run_autonomous_campaign` with the collaborators hard-wired by
`orchestrate.py`'s imports. -/
def run_autonomous_campaign (llm_available : Bool) (llm_parsed : List ProposalSpec)
    (campaign : CampaignSpec) : Except String (CampaignResult × List Effect) :=
  run_autonomous_campaign_with src_collaborators llm_available llm_parsed campaign

theorem combinations2_sound {α : Type} :
    ∀ (l : List α) (p : α × α),
      p ∈ combinations2 l ↔ ∃ i j : Nat, i < j ∧ l[i]? = some p.1 ∧ l[j]? = some p.2 := by
  intro l
  induction l with
  | nil =>
    intro p
    simp [combinations2]
  | cons x xs ih =>
    intro p
    simp only [combinations2, List.mem_append, List.mem_map, ih]
    constructor
    · rintro (⟨y, hy, rfl⟩ | ⟨i, j, hij, h1, h2⟩)
      · obtain ⟨j, hj⟩ := List.mem_iff_getElem?.mp hy
        exact ⟨0, j + 1, Nat.succ_pos j, by simp, by simpa using hj⟩
      · exact ⟨i + 1, j + 1, by omega, by simpa using h1, by simpa using h2⟩
    · rintro ⟨i, j, hij, h1, h2⟩
      match i, j with
      | 0, 0 => omega
      | 0, j + 1 =>
        left
        simp only [List.getElem?_cons_zero, Option.some.injEq] at h1
        simp only [List.getElem?_cons_succ] at h2
        refine ⟨p.2, List.mem_iff_getElem?.mpr ⟨j, h2⟩, ?_⟩
        rw [h1]
      | i + 1, j + 1 =>
        right
        exact ⟨i, j, by omega, by simpa using h1, by simpa using h2⟩

theorem mem_of_mem_combinations2 {α : Type} {l : List α} {p : α × α}
    (hp : p ∈ combinations2 l) : p.1 ∈ l ∧ p.2 ∈ l := by
  obtain ⟨i, j, _, h1, h2⟩ := (combinations2_sound l p).mp hp
  exact ⟨List.mem_iff_getElem?.mpr ⟨i, h1⟩, List.mem_iff_getElem?.mpr ⟨j, h2⟩⟩

/-- C6: `compareMethods(results, tolerance)` returns `(0.0, 0.0, true)`
whenever `results` has fewer than two elements; otherwise it returns
`max_abs_delta_real` and `max_abs_delta_imag` equal to the maxima over all
unordered pairs of results of the absolute `omega_real` and `omega_imag`
differences, and `is_consistent = true` iff both maxima are at most the
tolerance. -/
theorem c6_compare_methods_spec (rs : List QNMResult) (tol : PyRat)
    (hwf : ∀ r ∈ rs, r.omega_real.wf ∧ r.omega_imag.wf) (htol : tol.wf) :
    (rs.length < 2 → compare_methods rs tol = ⟨PyRat.zero, PyRat.zero, true⟩) ∧
    (2 ≤ rs.length →
      (∀ (i j : Nat) (a b : QNMResult), i < j → rs[i]? = some a → rs[j]? = some b →
          |a.omega_real.toRat - b.omega_real.toRat| ≤
            (compare_methods rs tol).max_abs_delta_real.toRat) ∧
      (∃ (i j : Nat) (a b : QNMResult), i < j ∧ rs[i]? = some a ∧ rs[j]? = some b ∧
          |a.omega_real.toRat - b.omega_real.toRat| =
            (compare_methods rs tol).max_abs_delta_real.toRat) ∧
      (∀ (i j : Nat) (a b : QNMResult), i < j → rs[i]? = some a → rs[j]? = some b →
          |a.omega_imag.toRat - b.omega_imag.toRat| ≤
            (compare_methods rs tol).max_abs_delta_imag.toRat) ∧
      (∃ (i j : Nat) (a b : QNMResult), i < j ∧ rs[i]? = some a ∧ rs[j]? = some b ∧
          |a.omega_imag.toRat - b.omega_imag.toRat| =
            (compare_methods rs tol).max_abs_delta_imag.toRat) ∧
      ((compare_methods rs tol).is_consistent = true ↔
          (compare_methods rs tol).max_abs_delta_real.toRat ≤ tol.toRat ∧
          (compare_methods rs tol).max_abs_delta_imag.toRat ≤ tol.toRat)) := by
  constructor
  · intro h
    unfold compare_methods
    rw [if_pos h]
  · intro h
    have hnl : ¬ rs.length < 2 := not_lt.mpr h
    have hcm : compare_methods rs tol =
        ⟨pyMaxD ((combinations2 rs).map
            (fun p => (p.1.omega_real.sub p.2.omega_real).abs)) PyRat.zero,
          pyMaxD ((combinations2 rs).map
            (fun p => (p.1.omega_imag.sub p.2.omega_imag).abs)) PyRat.zero,
          (pyMaxD ((combinations2 rs).map
            (fun p => (p.1.omega_real.sub p.2.omega_real).abs)) PyRat.zero).le tol &&
          (pyMaxD ((combinations2 rs).map
            (fun p => (p.1.omega_imag.sub p.2.omega_imag).abs)) PyRat.zero).le tol⟩ := by
      unfold compare_methods
      rw [if_neg hnl]
    have hwfR : ∀ d ∈ (combinations2 rs).map
        (fun p => (p.1.omega_real.sub p.2.omega_real).abs), d.wf := by
      intro d hd
      obtain ⟨p, hp, rfl⟩ := List.mem_map.mp hd
      obtain ⟨hp1, hp2⟩ := mem_of_mem_combinations2 hp
      exact PyRat.wf_abs (PyRat.wf_sub (hwf _ hp1).1 (hwf _ hp2).1)
    have hwfI : ∀ d ∈ (combinations2 rs).map
        (fun p => (p.1.omega_imag.sub p.2.omega_imag).abs), d.wf := by
      intro d hd
      obtain ⟨p, hp, rfl⟩ := List.mem_map.mp hd
      obtain ⟨hp1, hp2⟩ := mem_of_mem_combinations2 hp
      exact PyRat.wf_abs (PyRat.wf_sub (hwf _ hp1).2 (hwf _ hp2).2)
    have h0 : 0 < rs.length := by omega
    have h1 : 1 < rs.length := by omega
    have hpair01 : (rs[0], rs[1]) ∈ combinations2 rs :=
      (combinations2_sound rs _).mpr
        ⟨0, 1, by omega, List.getElem?_eq_getElem h0, List.getElem?_eq_getElem h1⟩
    have habsR : ∀ {a b : QNMResult}, a ∈ rs → b ∈ rs →
        ((a.omega_real.sub b.omega_real).abs).toRat =
          |a.omega_real.toRat - b.omega_real.toRat| := by
      intro a b ha hb
      rw [PyRat.toRat_abs (PyRat.wf_sub (hwf _ ha).1 (hwf _ hb).1),
        PyRat.toRat_sub (hwf _ ha).1 (hwf _ hb).1]
    have habsI : ∀ {a b : QNMResult}, a ∈ rs → b ∈ rs →
        ((a.omega_imag.sub b.omega_imag).abs).toRat =
          |a.omega_imag.toRat - b.omega_imag.toRat| := by
      intro a b ha hb
      rw [PyRat.toRat_abs (PyRat.wf_sub (hwf _ ha).2 (hwf _ hb).2),
        PyRat.toRat_sub (hwf _ ha).2 (hwf _ hb).2]
    refine ⟨?_, ?_, ?_, ?_, ?_⟩
    · intro i j a b hij hia hjb
      have hpm : (a, b) ∈ combinations2 rs :=
        (combinations2_sound rs _).mpr ⟨i, j, hij, hia, hjb⟩
      have hamem : a ∈ rs := (mem_of_mem_combinations2 hpm).1
      have hbmem : b ∈ rs := (mem_of_mem_combinations2 hpm).2
      have hd : (a.omega_real.sub b.omega_real).abs ∈ (combinations2 rs).map
          (fun p => (p.1.omega_real.sub p.2.omega_real).abs) :=
        List.mem_map.mpr ⟨(a, b), hpm, rfl⟩
      have := pyMaxD_ge (d := PyRat.zero) hwfR _ hd
      rw [habsR hamem hbmem] at this
      rw [hcm]
      exact this
    · have hne : (combinations2 rs).map
          (fun p => (p.1.omega_real.sub p.2.omega_real).abs) ≠ [] :=
        List.ne_nil_of_mem (List.mem_map.mpr ⟨(rs[0], rs[1]), hpair01, rfl⟩)
      have hmm := pyMaxD_mem (d := PyRat.zero) hne
      obtain ⟨p, hp, hpe⟩ := List.mem_map.mp hmm
      obtain ⟨i, j, hij, h1, h2⟩ := (combinations2_sound rs p).mp hp
      refine ⟨i, j, p.1, p.2, hij, h1, h2, ?_⟩
      rw [hcm]
      rw [← hpe,
        habsR (mem_of_mem_combinations2 hp).1 (mem_of_mem_combinations2 hp).2]
    · intro i j a b hij hia hjb
      have hpm : (a, b) ∈ combinations2 rs :=
        (combinations2_sound rs _).mpr ⟨i, j, hij, hia, hjb⟩
      have hamem : a ∈ rs := (mem_of_mem_combinations2 hpm).1
      have hbmem : b ∈ rs := (mem_of_mem_combinations2 hpm).2
      have hd : (a.omega_imag.sub b.omega_imag).abs ∈ (combinations2 rs).map
          (fun p => (p.1.omega_imag.sub p.2.omega_imag).abs) :=
        List.mem_map.mpr ⟨(a, b), hpm, rfl⟩
      have := pyMaxD_ge (d := PyRat.zero) hwfI _ hd
      rw [habsI hamem hbmem] at this
      rw [hcm]
      exact this
    · have hne : (combinations2 rs).map
          (fun p => (p.1.omega_imag.sub p.2.omega_imag).abs) ≠ [] :=
        List.ne_nil_of_mem (List.mem_map.mpr ⟨(rs[0], rs[1]), hpair01, rfl⟩)
      have hmm := pyMaxD_mem (d := PyRat.zero) hne
      obtain ⟨p, hp, hpe⟩ := List.mem_map.mp hmm
      obtain ⟨i, j, hij, h1, h2⟩ := (combinations2_sound rs p).mp hp
      refine ⟨i, j, p.1, p.2, hij, h1, h2, ?_⟩
      rw [hcm]
      rw [← hpe,
        habsI (mem_of_mem_combinations2 hp).1 (mem_of_mem_combinations2 hp).2]
    · rw [hcm]
      simp only [Bool.and_eq_true]
      rw [PyRat.le_iff (pyMaxD_wf hwfR PyRat.wf_zero) htol,
        PyRat.le_iff (pyMaxD_wf hwfI PyRat.wf_zero) htol]

theorem PyRat.toRat_ofInt (n : Int) : (PyRat.ofInt n).toRat = (n : ℚ) := by
  unfold PyRat.ofInt PyRat.toRat
  norm_num

theorem dictGet?_some_mem {β : Type} {d : PyDict β} {k : String} {v : β}
    (h : dictGet? d k = some v) : ∃ p ∈ d, p.2 = v := by
  unfold dictGet? at h
  cases hf : d.find? (fun p => p.1 == k) with
  | none => rw [hf] at h; simp at h
  | some p =>
    rw [hf] at h
    simp at h
    exact ⟨p, List.mem_of_find?_eq_some hf, h⟩

theorem get_parameter_cons_some {theory : TheorySpec} {n : String}
    {rest : List String} {dflt v : PyRat}
    (h : dictGet? theory.parameters n = some v) :
    get_parameter theory (n :: rest) dflt = v := by
  unfold get_parameter
  rw [h]

theorem get_parameter_cons_none {theory : TheorySpec} {n : String}
    {rest : List String} {dflt : PyRat}
    (h : dictGet? theory.parameters n = none) :
    get_parameter theory (n :: rest) dflt = get_parameter theory rest dflt := by
  conv_lhs => unfold get_parameter
  rw [h]

theorem get_parameter_nil {theory : TheorySpec} {dflt : PyRat} :
    get_parameter theory [] dflt = dflt := rfl

theorem get_parameter_wf (theory : TheorySpec) (names : List String) (dflt : PyRat)
    (hp : ∀ p ∈ theory.parameters, p.2.wf) (hd : dflt.wf) :
    (get_parameter theory names dflt).wf := by
  induction names with
  | nil => exact hd
  | cons n rest ih =>
    unfold get_parameter
    cases hg : dictGet? theory.parameters n with
    | none => exact ih
    | some v =>
      obtain ⟨p, hpmem, hpv⟩ := dictGet?_some_mem hg
      rw [← hpv]
      exact hp p hpmem

theorem mem_ite_singleton {α : Type} {s x : α} {b : Bool} :
    (s ∈ (if b then [x] else [])) ↔ b = true ∧ s = x := by
  cases b <;> simp

theorem mem_four_ite {s x1 x2 x3 x4 : String} {b1 b2 b3 b4 : Bool} :
    s ∈ ((((if b1 then [x1] else []) ++ (if b2 then [x2] else [])) ++
        (if b3 then [x3] else [])) ++ (if b4 then [x4] else [])) ↔
      (b1 = true ∧ s = x1) ∨ (b2 = true ∧ s = x2) ∨
      (b3 = true ∧ s = x3) ∨ (b4 = true ∧ s = x4) := by
  simp [List.mem_append, mem_ite_singleton, or_assoc]

theorem zero_lt_pyMaxD_iff {l : List PyRat} (hl : l ≠ []) (hwf : ∀ x ∈ l, x.wf) :
    PyRat.zero.lt (pyMaxD l ⟨-1, 1⟩) = true ↔ ∃ x ∈ l, 0 < x.toRat := by
  have hwfm : (pyMaxD l ⟨-1, 1⟩).wf := pyMaxD_wf hwf (by decide)
  constructor
  · intro h
    have hm := pyMaxD_mem (d := ⟨-1, 1⟩) hl
    refine ⟨_, hm, ?_⟩
    have := (PyRat.lt_iff PyRat.wf_zero (hwf _ hm)).mp h
    rwa [PyRat.toRat_zero] at this
  · rintro ⟨x, hx, hpos⟩
    have hle := pyMaxD_ge (d := ⟨-1, 1⟩) hwf x hx
    rw [PyRat.lt_iff PyRat.wf_zero hwfm, PyRat.toRat_zero]
    exact lt_of_lt_of_le hpos hle

/-- C7: `evaluateConstraints` resolves the kinetic coefficient by trying
`kinetic_coeff` then `zeta`, defaulting to `1.0`; sets
`ghost_instability = (kinetic ≤ 0)` and `wrong_sign_kinetic = (kinetic < 0)`,
appending a separate reason for each (a strictly negative coefficient yields
both flags and both reasons); and resolves `alpha`, `beta` defaulting to
`0.0`, setting `divergent_background = (|alpha| > 100 or |beta| > 100)` with
a divergence reason appended iff it holds. -/
theorem c7_constraint_parameters (run_id : String) (theory : TheorySpec)
    (qnm : Option (List QNMResult))
    (hwf : ∀ p ∈ theory.parameters, p.2.wf) :
    (∀ v, dictGet? theory.parameters "kinetic_coeff" = some v →
        get_parameter theory ["kinetic_coeff", "zeta"] PyRat.one = v) ∧
    (dictGet? theory.parameters "kinetic_coeff" = none →
      ∀ v, dictGet? theory.parameters "zeta" = some v →
        get_parameter theory ["kinetic_coeff", "zeta"] PyRat.one = v) ∧
    (dictGet? theory.parameters "kinetic_coeff" = none →
      dictGet? theory.parameters "zeta" = none →
        get_parameter theory ["kinetic_coeff", "zeta"] PyRat.one = PyRat.one) ∧
    ((evaluate_constraints run_id theory qnm).ghost_instability = true ↔
        (get_parameter theory ["kinetic_coeff", "zeta"] PyRat.one).toRat ≤ 0) ∧
    ((evaluate_constraints run_id theory qnm).wrong_sign_kinetic = true ↔
        (get_parameter theory ["kinetic_coeff", "zeta"] PyRat.one).toRat < 0) ∧
    (ghost_reason ∈ (evaluate_constraints run_id theory qnm).reasons ↔
        (get_parameter theory ["kinetic_coeff", "zeta"] PyRat.one).toRat ≤ 0) ∧
    (wrong_sign_reason ∈ (evaluate_constraints run_id theory qnm).reasons ↔
        (get_parameter theory ["kinetic_coeff", "zeta"] PyRat.one).toRat < 0) ∧
    (dictGet? theory.parameters "alpha" = none →
        get_parameter theory ["alpha"] PyRat.zero = PyRat.zero) ∧
    (dictGet? theory.parameters "beta" = none →
        get_parameter theory ["beta"] PyRat.zero = PyRat.zero) ∧
    ((evaluate_constraints run_id theory qnm).divergent_background = true ↔
        (100 < |(get_parameter theory ["alpha"] PyRat.zero).toRat| ∨
         100 < |(get_parameter theory ["beta"] PyRat.zero).toRat|)) ∧
    (divergence_reason ∈ (evaluate_constraints run_id theory qnm).reasons ↔
        (100 < |(get_parameter theory ["alpha"] PyRat.zero).toRat| ∨
         100 < |(get_parameter theory ["beta"] PyRat.zero).toRat|)) := by
  have hk_wf : (get_parameter theory ["kinetic_coeff", "zeta"] PyRat.one).wf :=
    get_parameter_wf theory _ _ hwf PyRat.wf_one
  have ha_wf : (get_parameter theory ["alpha"] PyRat.zero).wf :=
    get_parameter_wf theory _ _ hwf PyRat.wf_zero
  have hb_wf : (get_parameter theory ["beta"] PyRat.zero).wf :=
    get_parameter_wf theory _ _ hwf PyRat.wf_zero
  have hle_iff : ((get_parameter theory ["kinetic_coeff", "zeta"] PyRat.one).le
      PyRat.zero = true) ↔
      (get_parameter theory ["kinetic_coeff", "zeta"] PyRat.one).toRat ≤ 0 := by
    rw [PyRat.le_iff hk_wf PyRat.wf_zero, PyRat.toRat_zero]
  have hlt_iff : ((get_parameter theory ["kinetic_coeff", "zeta"] PyRat.one).lt
      PyRat.zero = true) ↔
      (get_parameter theory ["kinetic_coeff", "zeta"] PyRat.one).toRat < 0 := by
    rw [PyRat.lt_iff hk_wf PyRat.wf_zero, PyRat.toRat_zero]
  have hdiv_iff : (((PyRat.ofInt 100).lt
        (get_parameter theory ["alpha"] PyRat.zero).abs ||
      (PyRat.ofInt 100).lt (get_parameter theory ["beta"] PyRat.zero).abs) = true) ↔
      (100 < |(get_parameter theory ["alpha"] PyRat.zero).toRat| ∨
       100 < |(get_parameter theory ["beta"] PyRat.zero).toRat|) := by
    rw [Bool.or_eq_true,
      PyRat.lt_iff (PyRat.wf_ofInt 100) (PyRat.wf_abs ha_wf),
      PyRat.lt_iff (PyRat.wf_ofInt 100) (PyRat.wf_abs hb_wf),
      PyRat.toRat_abs ha_wf, PyRat.toRat_abs hb_wf, PyRat.toRat_ofInt]
    norm_num
  have hreasons : (evaluate_constraints run_id theory qnm).reasons =
      ((((if (get_parameter theory ["kinetic_coeff", "zeta"] PyRat.one).le
            PyRat.zero then [ghost_reason] else []) ++
         (if (get_parameter theory ["kinetic_coeff", "zeta"] PyRat.one).lt
            PyRat.zero then [wrong_sign_reason] else [])) ++
        (if ((PyRat.ofInt 100).lt (get_parameter theory ["alpha"] PyRat.zero).abs ||
            (PyRat.ofInt 100).lt (get_parameter theory ["beta"] PyRat.zero).abs)
          then [divergence_reason] else [])) ++
       (if (qnmTruthy qnm && PyRat.zero.lt
            (pyMaxD ((qnm.getD []).map (fun r => r.omega_imag)) ⟨-1, 1⟩))
          then [unstable_reason] else [])) := rfl
  refine ⟨?_, ?_, ?_, ?_, ?_, ?_, ?_, ?_, ?_, ?_, ?_⟩
  · intro v hv
    exact get_parameter_cons_some hv
  · intro h0 v hv
    rw [get_parameter_cons_none h0]
    exact get_parameter_cons_some hv
  · intro h0 h1
    rw [get_parameter_cons_none h0, get_parameter_cons_none h1]
    exact get_parameter_nil
  · exact hle_iff
  · exact hlt_iff
  · rw [hreasons, mem_four_ite]
    constructor
    · rintro (⟨hg, _⟩ | ⟨_, he⟩ | ⟨_, he⟩ | ⟨_, he⟩)
      · exact hle_iff.mp hg
      · exact absurd he (by decide)
      · exact absurd he (by decide)
      · exact absurd he (by decide)
    · intro hle
      exact Or.inl ⟨hle_iff.mpr hle, rfl⟩
  · rw [hreasons, mem_four_ite]
    constructor
    · rintro (⟨_, he⟩ | ⟨hg, _⟩ | ⟨_, he⟩ | ⟨_, he⟩)
      · exact absurd he (by decide)
      · exact hlt_iff.mp hg
      · exact absurd he (by decide)
      · exact absurd he (by decide)
    · intro hlt
      exact Or.inr (Or.inl ⟨hlt_iff.mpr hlt, rfl⟩)
  · intro h0
    rw [get_parameter_cons_none h0]
    exact get_parameter_nil
  · intro h0
    rw [get_parameter_cons_none h0]
    exact get_parameter_nil
  · exact hdiv_iff
  · rw [hreasons, mem_four_ite]
    constructor
    · rintro (⟨_, he⟩ | ⟨_, he⟩ | ⟨hg, _⟩ | ⟨_, he⟩)
      · exact absurd he (by decide)
      · exact absurd he (by decide)
      · exact hdiv_iff.mp hg
      · exact absurd he (by decide)
    · intro hdv
      exact Or.inr (Or.inr (Or.inl ⟨hdiv_iff.mpr hdv, rfl⟩))

/-- C8: with a non-empty `qnm_results` collection, the verdict carries the
unstable-mode reason iff some supplied result has positive `omega_imag`
(equivalently, the maximum `omega_imag` is positive); with an empty or absent
collection the check is skipped; and a non-positive maximum yields a valid
verdict absent other violations. -/
theorem c8_mode_stability (run_id : String) (theory : TheorySpec)
    (qnm : Option (List QNMResult))
    (hwfq : ∀ r ∈ qnm.getD [], r.omega_imag.wf)
    (hwfp : ∀ p ∈ theory.parameters, p.2.wf) :
    (qnmTruthy qnm = true →
      (unstable_reason ∈ (evaluate_constraints run_id theory qnm).reasons ↔
        ∃ r ∈ qnm.getD [], 0 < r.omega_imag.toRat)) ∧
    (qnmTruthy qnm = false →
      unstable_reason ∉ (evaluate_constraints run_id theory qnm).reasons) ∧
    (qnmTruthy qnm = true →
      (∀ r ∈ qnm.getD [], r.omega_imag.toRat ≤ 0) →
      0 < (get_parameter theory ["kinetic_coeff", "zeta"] PyRat.one).toRat →
      |(get_parameter theory ["alpha"] PyRat.zero).toRat| ≤ 100 →
      |(get_parameter theory ["beta"] PyRat.zero).toRat| ≤ 100 →
      (evaluate_constraints run_id theory qnm).is_valid = true) := by
  have hk_wf : (get_parameter theory ["kinetic_coeff", "zeta"] PyRat.one).wf :=
    get_parameter_wf theory _ _ hwfp PyRat.wf_one
  have ha_wf : (get_parameter theory ["alpha"] PyRat.zero).wf :=
    get_parameter_wf theory _ _ hwfp PyRat.wf_zero
  have hb_wf : (get_parameter theory ["beta"] PyRat.zero).wf :=
    get_parameter_wf theory _ _ hwfp PyRat.wf_zero
  have hle_iff : ((get_parameter theory ["kinetic_coeff", "zeta"] PyRat.one).le
      PyRat.zero = true) ↔
      (get_parameter theory ["kinetic_coeff", "zeta"] PyRat.one).toRat ≤ 0 := by
    rw [PyRat.le_iff hk_wf PyRat.wf_zero, PyRat.toRat_zero]
  have hlt_iff : ((get_parameter theory ["kinetic_coeff", "zeta"] PyRat.one).lt
      PyRat.zero = true) ↔
      (get_parameter theory ["kinetic_coeff", "zeta"] PyRat.one).toRat < 0 := by
    rw [PyRat.lt_iff hk_wf PyRat.wf_zero, PyRat.toRat_zero]
  have hdiv_iff : (((PyRat.ofInt 100).lt
        (get_parameter theory ["alpha"] PyRat.zero).abs ||
      (PyRat.ofInt 100).lt (get_parameter theory ["beta"] PyRat.zero).abs) = true) ↔
      (100 < |(get_parameter theory ["alpha"] PyRat.zero).toRat| ∨
       100 < |(get_parameter theory ["beta"] PyRat.zero).toRat|) := by
    rw [Bool.or_eq_true,
      PyRat.lt_iff (PyRat.wf_ofInt 100) (PyRat.wf_abs ha_wf),
      PyRat.lt_iff (PyRat.wf_ofInt 100) (PyRat.wf_abs hb_wf),
      PyRat.toRat_abs ha_wf, PyRat.toRat_abs hb_wf, PyRat.toRat_ofInt]
    norm_num
  have hreasons : (evaluate_constraints run_id theory qnm).reasons =
      ((((if (get_parameter theory ["kinetic_coeff", "zeta"] PyRat.one).le
            PyRat.zero then [ghost_reason] else []) ++
         (if (get_parameter theory ["kinetic_coeff", "zeta"] PyRat.one).lt
            PyRat.zero then [wrong_sign_reason] else [])) ++
        (if ((PyRat.ofInt 100).lt (get_parameter theory ["alpha"] PyRat.zero).abs ||
            (PyRat.ofInt 100).lt (get_parameter theory ["beta"] PyRat.zero).abs)
          then [divergence_reason] else [])) ++
       (if (qnmTruthy qnm && PyRat.zero.lt
            (pyMaxD ((qnm.getD []).map (fun r => r.omega_imag)) ⟨-1, 1⟩))
          then [unstable_reason] else [])) := rfl
  have hmapwf : ∀ x ∈ (qnm.getD []).map (fun r => r.omega_imag), x.wf := by
    intro x hx
    obtain ⟨r, hr, rfl⟩ := List.mem_map.mp hx
    exact hwfq r hr
  refine ⟨?_, ?_, ?_⟩
  · intro ht
    have hl : qnm.getD [] ≠ [] := by
      cases qnm with
      | none => simp [qnmTruthy] at ht
      | some l =>
        simp only [qnmTruthy, Bool.not_eq_eq_eq_not, Bool.not_true] at ht
        simpa [List.isEmpty_iff] using ht
    have hmapne : (qnm.getD []).map (fun r => r.omega_imag) ≠ [] := by
      simpa using hl
    rw [hreasons, mem_four_ite]
    constructor
    · rintro (⟨_, he⟩ | ⟨_, he⟩ | ⟨_, he⟩ | ⟨hu, _⟩)
      · exact absurd he (by decide)
      · exact absurd he (by decide)
      · exact absurd he (by decide)
      · have hx := (Bool.and_eq_true _ _).mp hu
        obtain ⟨x, hxmem, hxpos⟩ := (zero_lt_pyMaxD_iff hmapne hmapwf).mp hx.2
        obtain ⟨r, hr, rfl⟩ := List.mem_map.mp hxmem
        exact ⟨r, hr, hxpos⟩
    · rintro ⟨r, hr, hrpos⟩
      refine Or.inr (Or.inr (Or.inr ⟨?_, rfl⟩))
      rw [Bool.and_eq_true]
      exact ⟨ht, (zero_lt_pyMaxD_iff hmapne hmapwf).mpr
        ⟨r.omega_imag, List.mem_map_of_mem _ hr, hrpos⟩⟩
  · intro hf
    rw [hreasons, mem_four_ite]
    rintro (⟨_, he⟩ | ⟨_, he⟩ | ⟨_, he⟩ | ⟨hu, _⟩)
    · exact absurd he (by decide)
    · exact absurd he (by decide)
    · exact absurd he (by decide)
    · have hx := (Bool.and_eq_true _ _).mp hu
      rw [hf] at hx
      exact absurd hx.1 (by simp)
  · intro ht hall hk ha hb
    have hl : qnm.getD [] ≠ [] := by
      cases qnm with
      | none => simp [qnmTruthy] at ht
      | some l =>
        simp only [qnmTruthy, Bool.not_eq_eq_eq_not, Bool.not_true] at ht
        simpa [List.isEmpty_iff] using ht
    have hmapne : (qnm.getD []).map (fun r => r.omega_imag) ≠ [] := by
      simpa using hl
    have hg : (get_parameter theory ["kinetic_coeff", "zeta"] PyRat.one).le
        PyRat.zero = false := by
      cases hgb : (get_parameter theory ["kinetic_coeff", "zeta"] PyRat.one).le
          PyRat.zero with
      | false => rfl
      | true => exact absurd (hle_iff.mp hgb) (not_le.mpr hk)
    have hw : (get_parameter theory ["kinetic_coeff", "zeta"] PyRat.one).lt
        PyRat.zero = false := by
      cases hwb : (get_parameter theory ["kinetic_coeff", "zeta"] PyRat.one).lt
          PyRat.zero with
      | false => rfl
      | true => exact absurd (hlt_iff.mp hwb) (not_lt.mpr (le_of_lt hk))
    have hdv : ((PyRat.ofInt 100).lt
        (get_parameter theory ["alpha"] PyRat.zero).abs ||
        (PyRat.ofInt 100).lt (get_parameter theory ["beta"] PyRat.zero).abs) = false := by
      cases hdb : ((PyRat.ofInt 100).lt
          (get_parameter theory ["alpha"] PyRat.zero).abs ||
          (PyRat.ofInt 100).lt (get_parameter theory ["beta"] PyRat.zero).abs) with
      | false => rfl
      | true =>
        rcases hdiv_iff.mp hdb with h | h
        · exact absurd h (not_lt.mpr ha)
        · exact absurd h (not_lt.mpr hb)
    have hu0 : PyRat.zero.lt
        (pyMaxD ((qnm.getD []).map (fun r => r.omega_imag)) ⟨-1, 1⟩) = false := by
      cases hub : PyRat.zero.lt
          (pyMaxD ((qnm.getD []).map (fun r => r.omega_imag)) ⟨-1, 1⟩) with
      | false => rfl
      | true =>
        obtain ⟨x, hxmem, hxpos⟩ := (zero_lt_pyMaxD_iff hmapne hmapwf).mp hub
        obtain ⟨r, hr, rfl⟩ := List.mem_map.mp hxmem
        exact absurd hxpos (not_lt.mpr (hall r hr))
    have hempty : (evaluate_constraints run_id theory qnm).reasons = [] := by
      rw [hreasons, hg, hw, hdv, hu0]
      simp
    have hval : (evaluate_constraints run_id theory qnm).is_valid =
        (evaluate_constraints run_id theory qnm).reasons.isEmpty := rfl
    rw [hval, hempty]
    rfl

/-- C9: for every input, the verdict returned by `evaluateConstraints`
satisfies `is_valid = true` iff its `reasons` sequence is empty. -/
theorem c9_valid_iff_no_reasons (run_id : String) (theory : TheorySpec)
    (qnm : Option (List QNMResult)) :
    (evaluate_constraints run_id theory qnm).is_valid = true ↔
      (evaluate_constraints run_id theory qnm).reasons = [] := by
  have h : (evaluate_constraints run_id theory qnm).is_valid =
      (evaluate_constraints run_id theory qnm).reasons.isEmpty := rfl
  rw [h]
  exact List.isEmpty_iff

/-- Concrete three-method result set used to instantiate `c6_compare_methods_spec`. -/
def c6w_results : List QNMResult :=
  [{ run_id := "w6", method := .shooting, l := 2, n := 0,
     omega_real := ⟨1, 1⟩, omega_imag := ⟨-1, 1⟩ },
   { run_id := "w6", method := .wkb, l := 2, n := 0,
     omega_real := ⟨2, 1⟩, omega_imag := ⟨-2, 1⟩ },
   { run_id := "w6", method := .spectral, l := 2, n := 0,
     omega_real := ⟨5, 1⟩, omega_imag := ⟨-3, 1⟩ }]

theorem c6_witness :
    (∀ r ∈ c6w_results, r.omega_real.wf ∧ r.omega_imag.wf) ∧
    default_tolerance.wf ∧ 2 ≤ c6w_results.length ∧
    ((compare_methods c6w_results default_tolerance).is_consistent = true ↔
      (compare_methods c6w_results default_tolerance).max_abs_delta_real.toRat ≤
        default_tolerance.toRat ∧
      (compare_methods c6w_results default_tolerance).max_abs_delta_imag.toRat ≤
        default_tolerance.toRat) :=
  ⟨by decide, by decide, by decide,
   ((c6_compare_methods_spec c6w_results default_tolerance (by decide)
      (by decide)).2 (by decide)).2.2.2.2⟩

/-- Concrete theory used to instantiate `c7_constraint_parameters`: a strictly
negative kinetic coefficient and a large `alpha`. -/
def c7w_theory : TheorySpec :=
  { name := "w7", action := "R", parameters := [("kinetic_coeff", ⟨-1, 1⟩), ("alpha", ⟨150, 1⟩)] }

theorem c7_witness :
    (∀ p ∈ c7w_theory.parameters, p.2.wf) ∧
    (ghost_reason ∈ (evaluate_constraints "w7" c7w_theory (some [])).reasons ↔
      (get_parameter c7w_theory ["kinetic_coeff", "zeta"] PyRat.one).toRat ≤ 0) ∧
    (wrong_sign_reason ∈ (evaluate_constraints "w7" c7w_theory (some [])).reasons ↔
      (get_parameter c7w_theory ["kinetic_coeff", "zeta"] PyRat.one).toRat < 0) ∧
    (divergence_reason ∈ (evaluate_constraints "w7" c7w_theory (some [])).reasons ↔
      (100 < |(get_parameter c7w_theory ["alpha"] PyRat.zero).toRat| ∨
       100 < |(get_parameter c7w_theory ["beta"] PyRat.zero).toRat|)) :=
  ⟨by decide,
   (c7_constraint_parameters "w7" c7w_theory (some []) (by decide)).2.2.2.2.2.1,
   (c7_constraint_parameters "w7" c7w_theory (some []) (by decide)).2.2.2.2.2.2.1,
   (c7_constraint_parameters "w7" c7w_theory (some []) (by decide)).2.2.2.2.2.2.2.2.2.2⟩

/-- Concrete unstable-mode result set used to instantiate `c8_mode_stability`. -/
def c8w_results : List QNMResult :=
  [{ run_id := "w8", method := .shooting, l := 2, n := 0,
     omega_real := ⟨1, 2⟩, omega_imag := ⟨1, 2⟩ }]

/-- Concrete parameter-free theory used to instantiate `c8_mode_stability`. -/
def c8w_theory : TheorySpec := { name := "w8", action := "R", parameters := [] }

theorem c8_witness :
    (∀ r ∈ (some c8w_results : Option (List QNMResult)).getD [], r.omega_imag.wf) ∧
    (∀ p ∈ c8w_theory.parameters, p.2.wf) ∧
    qnmTruthy (some c8w_results) = true ∧
    (unstable_reason ∈ (evaluate_constraints "w8" c8w_theory (some c8w_results)).reasons ↔
      ∃ r ∈ (some c8w_results : Option (List QNMResult)).getD [],
        0 < r.omega_imag.toRat) :=
  ⟨by decide, by decide, by decide,
   (c8_mode_stability "w8" c8w_theory (some c8w_results) (by decide) (by decide)).1
     (by decide)⟩

theorem countP_replicate {α : Type} (p : α → Bool) (a : α) (n : Nat) :
    (List.replicate n a).countP p = if p a then n else 0 := by
  induction n with
  | zero => simp
  | succ n ih =>
    rw [List.replicate_succ, List.countP_cons]
    cases hpa : p a <;> simp [ih, hpa]

/-- The candidate theory the orchestrator builds from a proposal (the inlined
`_proposal_to_theory` call of the loop body). -/
def candidate_theory (campaign : CampaignSpec) (proposal : ProposalSpec) : TheorySpec :=
  proposal_to_theory campaign.seed_theory proposal.name proposal.action proposal.parameters

/-- The background system the orchestrator computes for a candidate. -/
def candidate_background (C : Collaborators) (campaign : CampaignSpec)
    (proposal : ProposalSpec) : BackgroundSystem :=
  C.reduce (candidate_theory campaign proposal)
    (C.derive (candidate_theory campaign proposal) campaign.run_id) campaign.run_id

/-- The `QNMRunConfig` the orchestrator's QNM loop builds for a method
(`QNMRunConfig(method=method, l=2, n=0, mass=parameters.get("mass", 1.0))`). -/
def loop_config (theory : TheorySpec) (m : Method) : QNMRunConfig :=
  { l := 2, n := 0, mass := dictGetD theory.parameters "mass" PyRat.one, method := m }

theorem qnm_stage_cons_eq (C : Collaborators) (run_id : String) (theory : TheorySpec)
    (m : Method) (rest : List Method) :
    qnm_stage C run_id theory (m :: rest) =
      (match C.solve (loop_config theory m) run_id m with
       | .error e => .error e
       | .ok q =>
         match qnm_stage C run_id theory rest with
         | .error e => .error e
         | .ok (qs, effs) => .ok (q :: qs, .save .qnm_runs run_id :: effs)) := rfl

theorem qnm_stage_ok_trace (C : Collaborators) (run_id : String) (theory : TheorySpec) :
    ∀ (ms : List Method) (qs : List QNMResult) (effs : List Effect),
      qnm_stage C run_id theory ms = .ok (qs, effs) →
      qs.length = ms.length ∧
      effs = List.replicate ms.length (Effect.save .qnm_runs run_id) := by
  intro ms
  induction ms with
  | nil =>
    intro qs effs h
    unfold qnm_stage at h
    simp only [Except.ok.injEq, Prod.mk.injEq] at h
    simp [← h.1, ← h.2]
  | cons m rest ih =>
    intro qs effs h
    rw [qnm_stage_cons_eq] at h
    cases hsolve : C.solve (loop_config theory m) run_id m with
    | error e =>
      rw [hsolve] at h
      simp at h
    | ok q =>
      rw [hsolve] at h
      cases hrest : qnm_stage C run_id theory rest with
      | error e =>
        rw [hrest] at h
        simp at h
      | ok pr =>
        obtain ⟨qs2, effs2⟩ := pr
        rw [hrest] at h
        simp only [Except.ok.injEq, Prod.mk.injEq] at h
        obtain ⟨h1, h2⟩ := h
        obtain ⟨hl, he⟩ := ih qs2 effs2 hrest
        constructor
        · rw [← h1]
          simp [hl]
        · rw [← h2]
          simp [he, List.replicate_succ]

theorem qnm_stage_error_of_solve_error (C : Collaborators) (run_id : String)
    (theory : TheorySpec) (m : Method) (rest : List Method) (e : String)
    (h : C.solve (loop_config theory m) run_id m = .error e) :
    qnm_stage C run_id theory (m :: rest) = .error e := by
  rw [qnm_stage_cons_eq, h]

theorem process_candidate_bg_rejected (C : Collaborators) (campaign : CampaignSpec)
    (proposal : ProposalSpec)
    (hbg : consistency_square (candidate_background C campaign proposal) = false) :
    process_candidate C campaign proposal = .ok
      { accepted := false
        effects :=
          [.save .theories campaign.run_id,
           .event campaign.run_id "validate" "ok"
             ("Accepted proposal payload: " ++ proposal.name),
           .save .derivations campaign.run_id,
           .json_artifact campaign.run_id "derive" (proposal.name ++ "_eom.json"),
           .event campaign.run_id "background" "rejected"
             ("Inconsistent system: " ++ proposal.name)]
        table_rows := []
        paper_outputs := [] } := by
  unfold candidate_background candidate_theory at hbg
  simp only [process_candidate]
  rw [hbg]
  rfl

theorem process_candidate_qnm_error (C : Collaborators) (campaign : CampaignSpec)
    (proposal : ProposalSpec) (e : String)
    (hbg : consistency_square (candidate_background C campaign proposal) = true)
    (hq : qnm_stage C campaign.run_id (candidate_theory campaign proposal)
        campaign_methods = .error e) :
    process_candidate C campaign proposal = .error e := by
  unfold candidate_background candidate_theory at hbg
  unfold candidate_theory at hq
  simp only [process_candidate]
  rw [hbg, hq]
  rfl

theorem process_candidate_constraints_rejected (C : Collaborators)
    (campaign : CampaignSpec) (proposal : ProposalSpec)
    (qs : List QNMResult) (qeffs : List Effect)
    (hbg : consistency_square (candidate_background C campaign proposal) = true)
    (hq : qnm_stage C campaign.run_id (candidate_theory campaign proposal)
        campaign_methods = .ok (qs, qeffs))
    (hc : (evaluate_constraints campaign.run_id (candidate_theory campaign proposal)
        (some qs)).is_valid = false) :
    process_candidate C campaign proposal = .ok
      { accepted := false
        effects :=
          [.save .theories campaign.run_id,
           .event campaign.run_id "validate" "ok"
             ("Accepted proposal payload: " ++ proposal.name),
           .save .derivations campaign.run_id,
           .json_artifact campaign.run_id "derive" (proposal.name ++ "_eom.json"),
           .file_artifact campaign.run_id "perturb" (proposal.name ++ "_master.txt")] ++
          qeffs ++
          [.save .constraint_reports campaign.run_id,
           .event campaign.run_id "constraints" "rejected"
             (proposal.name ++ " rejected by physics filters: " ++
               String.intercalate "; "
                 (evaluate_constraints campaign.run_id
                   (candidate_theory campaign proposal) (some qs)).reasons)]
        table_rows := []
        paper_outputs := [] } := by
  unfold candidate_background at hbg
  unfold candidate_theory at hbg hq hc ⊢
  simp only [process_candidate]
  rw [hbg, hq]
  split
  · rename_i hcond
    simp at hcond
  · split
    · rename_i e heq
      exact Except.noConfusion heq
    · rename_i qnm_results eff_qnm heq
      simp only [Except.ok.injEq, Prod.mk.injEq] at heq
      obtain ⟨h1, h2⟩ := heq
      subst h1
      subst h2
      rw [hc]
      simp [proposal_to_theory, List.append_assoc]

theorem process_candidate_accepted (C : Collaborators)
    (campaign : CampaignSpec) (proposal : ProposalSpec)
    (qs : List QNMResult) (qeffs : List Effect)
    (hbg : consistency_square (candidate_background C campaign proposal) = true)
    (hq : qnm_stage C campaign.run_id (candidate_theory campaign proposal)
        campaign_methods = .ok (qs, qeffs))
    (hc : (evaluate_constraints campaign.run_id (candidate_theory campaign proposal)
        (some qs)).is_valid = true) :
    process_candidate C campaign proposal = .ok
      { accepted := true
        effects :=
          [.save .theories campaign.run_id,
           .event campaign.run_id "validate" "ok"
             ("Accepted proposal payload: " ++ proposal.name),
           .save .derivations campaign.run_id,
           .json_artifact campaign.run_id "derive" (proposal.name ++ "_eom.json"),
           .file_artifact campaign.run_id "perturb" (proposal.name ++ "_master.txt")] ++
          qeffs ++
          [.save .constraint_reports campaign.run_id,
           .save .novelty_reports campaign.run_id,
           .save .paper_builds campaign.run_id,
           .event campaign.run_id "paper" "ok"
             ("Built paper outputs for " ++ proposal.name)]
        table_rows :=
          (dfSetCol (dfSetCol (dfSetCol (spectrum_table qs)
            "theory_name" (.str proposal.name))
            "method_disagreement_real"
              (.rat (compare_methods qs default_tolerance).max_abs_delta_real))
            "method_disagreement_imag"
              (.rat (compare_methods qs default_tolerance).max_abs_delta_imag)).rows
        paper_outputs := dictValues (C.build
          { run_id := campaign.run_id
            title := proposal.name ++ ": Autonomous Modified-Gravity Analysis"
            authors := ["Autonomous Physics AI"]
            output_dir := "artifacts/" ++ campaign.run_id ++ "/paper/" ++ proposal.name
            include_latex := true
            include_markdown := true }
          [("method_consistent", .bool (compare_methods qs default_tolerance).is_consistent),
           ("max_abs_delta_real", .rat (compare_methods qs default_tolerance).max_abs_delta_real),
           ("max_abs_delta_imag", .rat (compare_methods qs default_tolerance).max_abs_delta_imag)]) } := by
  unfold candidate_background at hbg
  unfold candidate_theory at hbg hq hc
  simp only [process_candidate]
  rw [hbg, hq]
  split
  · rename_i hcond
    simp at hcond
  · split
    · rename_i e heq
      exact Except.noConfusion heq
    · rename_i qnm_results eff_qnm heq
      simp only [Except.ok.injEq, Prod.mk.injEq] at heq
      obtain ⟨h1, h2⟩ := heq
      subst h1
      subst h2
      rw [hc]
      simp [proposal_to_theory, List.append_assoc]

theorem run_campaign_loop_cons_ok (C : Collaborators) (campaign : CampaignSpec)
    (p : ProposalSpec) (ps : List ProposalSpec) (step : CandidateStep)
    (h : process_candidate C campaign p = .ok step)
    (a r : Int) (outs : List String) (rows : List (PyDict PyVal)) (effs : List Effect)
    (hrest : run_campaign_loop C campaign ps = .ok (a, r, outs, rows, effs)) :
    run_campaign_loop C campaign (p :: ps) = .ok
      (a + (if step.accepted then 1 else 0),
       r + (if step.accepted then 0 else 1),
       step.paper_outputs ++ outs,
       step.table_rows ++ rows,
       step.effects ++ effs) := by
  unfold run_campaign_loop
  rw [h, hrest]

theorem run_campaign_loop_cons_error (C : Collaborators) (campaign : CampaignSpec)
    (p : ProposalSpec) (ps : List ProposalSpec) (e : String)
    (h : process_candidate C campaign p = .error e) :
    run_campaign_loop C campaign (p :: ps) = .error e := by
  unfold run_campaign_loop
  rw [h]

theorem run_campaign_loop_cons_inv (C : Collaborators) (campaign : CampaignSpec)
    (p : ProposalSpec) (ps : List ProposalSpec)
    (out : Int × Int × List String × List (PyDict PyVal) × List Effect)
    (h : run_campaign_loop C campaign (p :: ps) = .ok out) :
    ∃ step a r outs rows effs,
      process_candidate C campaign p = .ok step ∧
      run_campaign_loop C campaign ps = .ok (a, r, outs, rows, effs) ∧
      out = (a + (if step.accepted then 1 else 0),
        r + (if step.accepted then 0 else 1),
        step.paper_outputs ++ outs, step.table_rows ++ rows, step.effects ++ effs) := by
  have hstep : run_campaign_loop C campaign (p :: ps) =
      (match process_candidate C campaign p with
       | .error e => .error e
       | .ok step =>
         match run_campaign_loop C campaign ps with
         | .error e => .error e
         | .ok (a, r, outs, rows, effs) =>
           .ok (a + (if step.accepted then 1 else 0),
                r + (if step.accepted then 0 else 1),
                step.paper_outputs ++ outs, step.table_rows ++ rows,
                step.effects ++ effs)) := rfl
  rw [hstep] at h
  cases hpc : process_candidate C campaign p with
  | error e =>
    rw [hpc] at h
    simp at h
  | ok step =>
    rw [hpc] at h
    cases hrest : run_campaign_loop C campaign ps with
    | error e =>
      rw [hrest] at h
      simp at h
    | ok tup =>
      obtain ⟨a, r, outs, rows, effs⟩ := tup
      rw [hrest] at h
      simp only [Except.ok.injEq] at h
      exact ⟨step, a, r, outs, rows, effs, rfl, rfl, h.symm⟩

theorem run_campaign_loop_counts (C : Collaborators) (campaign : CampaignSpec) :
    ∀ (ps : List ProposalSpec) (a r : Int) (outs : List String)
      (rows : List (PyDict PyVal)) (effs : List Effect),
      run_campaign_loop C campaign ps = .ok (a, r, outs, rows, effs) →
      a + r = (ps.length : Int) ∧ 0 ≤ a ∧ 0 ≤ r := by
  intro ps
  induction ps with
  | nil =>
    intro a r outs rows effs h
    unfold run_campaign_loop at h
    simp only [Except.ok.injEq, Prod.mk.injEq] at h
    obtain ⟨ha, hr, -⟩ := h
    simp [← ha, ← hr]
  | cons p rest ih =>
    intro a r outs rows effs h
    obtain ⟨step, a2, r2, outs2, rows2, effs2, hstep, hrest, hout⟩ :=
      run_campaign_loop_cons_inv C campaign p rest _ h
    obtain ⟨hsum, h2a, h2r⟩ := ih a2 r2 outs2 rows2 effs2 hrest
    simp only [Prod.mk.injEq] at hout
    obtain ⟨ha, hr, -⟩ := hout
    by_cases hacc : step.accepted = true
    · simp only [hacc, if_true] at ha hr
      simp only [List.length_cons]
      omega
    · simp [hacc] at ha hr
      simp only [List.length_cons]
      omega

theorem run_autonomous_campaign_with_eq (C : Collaborators) (llm_available : Bool)
    (llm_parsed : List ProposalSpec) (campaign : CampaignSpec) :
    run_autonomous_campaign_with C llm_available llm_parsed campaign =
      (match run_campaign_loop C campaign
          (proposal_generate campaign.enable_llm llm_available llm_parsed
            campaign.seed_theory campaign.proposal_count) with
       | .error e => .error e
       | .ok (accepted, rejected, paper_outputs, rows, effs) =>
         .ok ({ run_id := campaign.run_id
                accepted_theories := accepted
                rejected_theories := rejected
                paper_outputs := paper_outputs
                summary :=
                  (if !rows.isEmpty then
                     (dictSet (summarize_scan ⟨rows⟩) "spectrum_file"
                        (.str ("artifacts/" ++ campaign.run_id ++ "/scan/qnm_spectrum.parquet")),
                      [Effect.dataframe_artifact
                        ("artifacts/" ++ campaign.run_id ++ "/scan/qnm_spectrum.parquet")])
                   else
                     ([("rows", PyVal.int 0), ("valid_rows", PyVal.int 0)], [])).1 },
              [.event campaign.run_id "propose" "started"
                 ("Campaign " ++ campaign.name ++ " started.")] ++ effs ++
              (if !rows.isEmpty then
                 (dictSet (summarize_scan ⟨rows⟩) "spectrum_file"
                    (.str ("artifacts/" ++ campaign.run_id ++ "/scan/qnm_spectrum.parquet")),
                  [Effect.dataframe_artifact
                    ("artifacts/" ++ campaign.run_id ++ "/scan/qnm_spectrum.parquet")])
               else
                 ([("rows", PyVal.int 0), ("valid_rows", PyVal.int 0)], [])).2 ++
              [.event campaign.run_id "finalize" "ok"
                 ("Campaign finished accepted=" ++ toString accepted ++
                   " rejected=" ++ toString rejected)])) := rfl

theorem run_campaign_ok_counts (C : Collaborators) (llm_available : Bool)
    (llm_parsed : List ProposalSpec) (campaign : CampaignSpec)
    (res : CampaignResult) (trace : List Effect)
    (h : run_autonomous_campaign_with C llm_available llm_parsed campaign = .ok (res, trace)) :
    res.accepted_theories + res.rejected_theories =
      ((proposal_generate campaign.enable_llm llm_available llm_parsed
        campaign.seed_theory campaign.proposal_count).length : Int) ∧
    0 ≤ res.accepted_theories ∧ 0 ≤ res.rejected_theories := by
  rw [run_autonomous_campaign_with_eq] at h
  cases hloop : run_campaign_loop C campaign
      (proposal_generate campaign.enable_llm llm_available llm_parsed
        campaign.seed_theory campaign.proposal_count) with
  | error e =>
    rw [hloop] at h
    simp at h
  | ok tup =>
    obtain ⟨a, r, outs, rows, effs⟩ := tup
    rw [hloop] at h
    simp only [Except.ok.injEq, Prod.mk.injEq] at h
    obtain ⟨hres, -⟩ := h
    obtain ⟨hsum, h2a, h2r⟩ :=
      run_campaign_loop_counts C campaign _ a r outs rows effs hloop
    rw [← hres]
    exact ⟨hsum, h2a, h2r⟩

theorem pySliceTo_length_le {α : Type} (l : List α) (count : Int) (hc : 0 ≤ count) :
    ((pySliceTo l count).length : Int) ≤ count := by
  unfold pySliceTo
  rw [if_pos hc]
  simp only [List.length_take]
  have h1 : min count.toNat l.length ≤ count.toNat := Nat.min_le_left _ _
  have h2 : (count.toNat : Int) = count := Int.toNat_of_nonneg hc
  omega

theorem proposal_generate_length_le (enable llm_available : Bool)
    (parsed : List ProposalSpec) (seed : TheorySpec) (count : Int)
    (hc : 0 ≤ count) :
    ((proposal_generate enable llm_available parsed seed count).length : Int) ≤ count := by
  unfold proposal_generate try_generate_llm proposal_fallback
  cases enable with
  | false =>
    simp only [Bool.false_eq_true, if_false]
    exact pySliceTo_length_le _ _ hc
  | true =>
    simp only [if_true]
    cases llm_available with
    | false =>
      simp only [Bool.false_eq_true, if_false, List.isEmpty_nil, Bool.not_true]
      exact pySliceTo_length_le _ _ hc
    | true =>
      simp only [if_true]
      by_cases hne : (pySliceTo parsed count).isEmpty
      · simp only [hne, Bool.not_true, Bool.false_eq_true, if_false]
        exact pySliceTo_length_le _ _ hc
      · have hne2 : (!(pySliceTo parsed count).isEmpty) = true := by
          simp [hne]
        rw [if_pos hne2]
        exact pySliceTo_length_le _ _ hc

/-- C4: a candidate whose `BackgroundSystem.consistency` `square_system`
field is not true is terminally rejected — `rejected_theories` is incremented
by exactly one, a stage=`background` status=`rejected` event is written, and
no perturbation, QNM, constraint, novelty or paper stage runs for it; the
candidate proceeds past this gate iff `square_system` is true. -/
theorem c4_background_gate (C : Collaborators) (campaign : CampaignSpec)
    (proposal : ProposalSpec) :
    (consistency_square (candidate_background C campaign proposal) = false →
      ∃ step, process_candidate C campaign proposal = .ok step ∧
        step.accepted = false ∧
        countEvents step.effects "background" "rejected" = 1 ∧
        countSaves step.effects .qnm_runs = 0 ∧
        countSaves step.effects .constraint_reports = 0 ∧
        countSaves step.effects .novelty_reports = 0 ∧
        countSaves step.effects .paper_builds = 0 ∧
        countStageArtifacts step.effects "perturb" = 0 ∧
        step.paper_outputs = [] ∧ step.table_rows = [] ∧
        (∀ ps out, run_campaign_loop C campaign (proposal :: ps) = .ok out →
          ∃ a r outs rows effs,
            run_campaign_loop C campaign ps = .ok (a, r, outs, rows, effs) ∧
            out.1 = a ∧ out.2.1 = r + 1)) ∧
    (consistency_square (candidate_background C campaign proposal) = true →
      ∀ step, process_candidate C campaign proposal = .ok step →
        countEvents step.effects "background" "rejected" = 0 ∧
        countStageArtifacts step.effects "perturb" = 1) := by
  constructor
  · intro hbg
    have hpc := process_candidate_bg_rejected C campaign proposal hbg
    refine ⟨_, hpc, rfl, rfl, rfl, rfl, rfl, rfl, rfl, rfl, rfl, ?_⟩
    intro ps out hloop
    obtain ⟨step2, a, r, outs, rows, effs, hstep2, hrest, hout⟩ :=
      run_campaign_loop_cons_inv C campaign proposal ps out hloop
    rw [hpc] at hstep2
    simp only [Except.ok.injEq] at hstep2
    refine ⟨a, r, outs, rows, effs, hrest, ?_, ?_⟩
    · rw [hout, ← hstep2]
      simp
    · rw [hout, ← hstep2]
      simp
  · intro hbg step hstep
    cases hq : qnm_stage C campaign.run_id (candidate_theory campaign proposal)
        campaign_methods with
    | error e =>
      rw [process_candidate_qnm_error C campaign proposal e hbg hq] at hstep
      exact Except.noConfusion hstep
    | ok pr =>
      obtain ⟨qs, qeffs⟩ := pr
      obtain ⟨-, heffs⟩ :=
        qnm_stage_ok_trace C campaign.run_id _ campaign_methods qs qeffs hq
      subst heffs
      cases hc : (evaluate_constraints campaign.run_id
          (candidate_theory campaign proposal) (some qs)).is_valid with
      | false =>
        rw [process_candidate_constraints_rejected C campaign proposal qs _ hbg hq hc]
          at hstep
        simp only [Except.ok.injEq] at hstep
        rw [← hstep]
        exact ⟨rfl, rfl⟩
      | true =>
        rw [process_candidate_accepted C campaign proposal qs _ hbg hq hc] at hstep
        simp only [Except.ok.injEq] at hstep
        rw [← hstep]
        exact ⟨rfl, rfl⟩

/-- Reducer output with a non-square system, exercising the background gate
(the in-repository reducer always emits a square system, so the gate fires
only for other reducer outputs, per the specification's collaborator
contract). -/
def c4w_reduce (theory : TheorySpec) (_artifact : DerivationArtifact)
    (run_id : String) : BackgroundSystem :=
  { run_id := run_id
    theory_name := theory.name
    ansatz := "static_spherical"
    unknown_functions := ["A(r)", "B(r)", "C(r)"]
    reduced_equations := [background_ode_1, background_ode_2]
    consistency :=
      [("equation_count", .int 2), ("unknown_count", .int 3),
       ("square_system", .bool false), ("bianchi_like_redundancy", .int 0)] }

/-- The source collaborators with the reducer replaced by `c4w_reduce`. -/
def c4w_collaborators : Collaborators :=
  { src_collaborators with reduce := c4w_reduce }

/-- Concrete campaign used to instantiate the background-gate theorem. -/
def c4w_campaign : CampaignSpec :=
  { name := "c4w", run_id := "c4w_run",
    seed_theory := { name := "s4", action := "R", parameters := [] },
    proposal_count := 1, enable_llm := false }

/-- Concrete proposal used to instantiate the background-gate theorem. -/
def c4w_proposal : ProposalSpec :=
  { name := "s4_alphaR2", action := "R + alpha*R**2",
    parameters := [("alpha", ⟨1, 100⟩)],
    rationale := "Leading quadratic curvature correction." }

theorem c4_witness :
    consistency_square (candidate_background c4w_collaborators c4w_campaign
      c4w_proposal) = false ∧
    (∃ step, process_candidate c4w_collaborators c4w_campaign c4w_proposal = .ok step ∧
      step.accepted = false ∧
      countEvents step.effects "background" "rejected" = 1 ∧
      countSaves step.effects .qnm_runs = 0 ∧
      countSaves step.effects .constraint_reports = 0 ∧
      countSaves step.effects .novelty_reports = 0 ∧
      countSaves step.effects .paper_builds = 0 ∧
      countStageArtifacts step.effects "perturb" = 0 ∧
      step.paper_outputs = [] ∧ step.table_rows = [] ∧
      (∀ ps out, run_campaign_loop c4w_collaborators c4w_campaign
          (c4w_proposal :: ps) = .ok out →
        ∃ a r outs rows effs,
          run_campaign_loop c4w_collaborators c4w_campaign ps =
            .ok (a, r, outs, rows, effs) ∧
          out.1 = a ∧ out.2.1 = r + 1)) :=
  ⟨by decide,
   (c4_background_gate c4w_collaborators c4w_campaign c4w_proposal).1 (by decide)⟩

/-- C1 (amended): `compare_methods` is computed for each candidate that
passes the background gate, but its `is_consistent` verdict is not used as a
gate — the candidate's acceptance equals the constraint verdict's
`is_valid`, independent of the disagreement report, whose values are merely
recorded in the paper summary handed to the document renderer; an accepted
candidate reaches the paper stage even when `is_consistent` is false. -/
theorem c1_consensus_not_a_gate (C : Collaborators) (campaign : CampaignSpec)
    (proposal : ProposalSpec) (qs : List QNMResult) (qeffs : List Effect)
    (hbg : consistency_square (candidate_background C campaign proposal) = true)
    (hq : qnm_stage C campaign.run_id (candidate_theory campaign proposal)
        campaign_methods = .ok (qs, qeffs)) :
    ∃ step, process_candidate C campaign proposal = .ok step ∧
      step.accepted = (evaluate_constraints campaign.run_id
        (candidate_theory campaign proposal) (some qs)).is_valid ∧
      ((evaluate_constraints campaign.run_id (candidate_theory campaign proposal)
          (some qs)).is_valid = true →
        countEvents step.effects "paper" "ok" = 1 ∧
        countSaves step.effects .paper_builds = 1 ∧
        step.paper_outputs = dictValues (C.build
          { run_id := campaign.run_id
            title := proposal.name ++ ": Autonomous Modified-Gravity Analysis"
            authors := ["Autonomous Physics AI"]
            output_dir := "artifacts/" ++ campaign.run_id ++ "/paper/" ++ proposal.name
            include_latex := true
            include_markdown := true }
          [("method_consistent", .bool (compare_methods qs default_tolerance).is_consistent),
           ("max_abs_delta_real", .rat (compare_methods qs default_tolerance).max_abs_delta_real),
           ("max_abs_delta_imag", .rat (compare_methods qs default_tolerance).max_abs_delta_imag)])) ∧
      ((evaluate_constraints campaign.run_id (candidate_theory campaign proposal)
          (some qs)).is_valid = false →
        countEvents step.effects "constraints" "rejected" = 1 ∧
        step.paper_outputs = []) := by
  obtain ⟨-, heffs⟩ :=
    qnm_stage_ok_trace C campaign.run_id _ campaign_methods qs qeffs hq
  subst heffs
  cases hc : (evaluate_constraints campaign.run_id
      (candidate_theory campaign proposal) (some qs)).is_valid with
  | false =>
    refine ⟨_, process_candidate_constraints_rejected C campaign proposal qs _ hbg hq hc,
      rfl, ?_, ?_⟩
    · intro habs
      exact absurd habs (by simp)
    · intro _
      exact ⟨rfl, rfl⟩
  | true =>
    refine ⟨_, process_candidate_accepted C campaign proposal qs _ hbg hq hc,
      rfl, ?_, ?_⟩
    · intro _
      exact ⟨rfl, rfl, rfl⟩
    · intro habs
      exact absurd habs (by simp)

/-- Seed theory with `mass = 0.1`, for which the three per-method frequencies
disagree by ≈ 0.072 > tolerance 0.02. -/
def cx1_seed : TheorySpec :=
  { name := "seed", action := "R", parameters := [("mass", ⟨1, 10⟩)] }

/-- One-candidate campaign on `cx1_seed` with the deterministic proposal path. -/
def cx1_campaign : CampaignSpec :=
  { name := "cx1", run_id := "cx1_run", seed_theory := cx1_seed,
    proposal_count := 1, enable_llm := false }

/-- The single proposal the deterministic fallback produces for `cx1_seed`. -/
def cx1_proposal : ProposalSpec :=
  { name := "seed_alphaR2", action := "R + alpha*R**2",
    parameters := [("alpha", ⟨1, 100⟩)],
    rationale := "Leading quadratic curvature correction." }

/-- The per-method QNM result set the pipeline computes for the `cx1`
candidate. -/
def cx1_qnm_results : List QNMResult :=
  match qnm_stage src_collaborators cx1_campaign.run_id
      (candidate_theory cx1_campaign cx1_proposal) campaign_methods with
  | .ok pr => pr.1
  | .error _ => []

/-- C1 counterexample: in the concrete campaign `cx1_campaign`, the sole
candidate's full per-method result set fails the consensus check
(`is_consistent = false`), yet the candidate is accepted, reaches the paper
stage, and contributes to `accepted_theories` and `paper_outputs` —
refuting the claim that an inconsistent `compareMethods` verdict rejects the
candidate. -/
theorem c1_counterexample :
    proposal_generate cx1_campaign.enable_llm false [] cx1_campaign.seed_theory
      cx1_campaign.proposal_count = [cx1_proposal] ∧
    qnm_stage src_collaborators cx1_campaign.run_id
      (candidate_theory cx1_campaign cx1_proposal) campaign_methods =
      .ok (cx1_qnm_results,
        List.replicate 3 (Effect.save .qnm_runs cx1_campaign.run_id)) ∧
    (compare_methods cx1_qnm_results default_tolerance).is_consistent = false ∧
    ((run_autonomous_campaign false [] cx1_campaign).toOption.map
      (fun rt =>
        (rt.1.accepted_theories, rt.1.rejected_theories, rt.1.paper_outputs.length,
         countEvents rt.2 "paper" "ok", countEvents rt.2 "background" "rejected",
         countEvents rt.2 "constraints" "rejected"))) =
      some (1, 0, 3, 1, 0, 0) := by decide

theorem c1_witness :
    consistency_square (candidate_background src_collaborators cx1_campaign
      cx1_proposal) = true ∧
    (∃ step, process_candidate src_collaborators cx1_campaign cx1_proposal = .ok step ∧
      step.accepted = (evaluate_constraints cx1_campaign.run_id
        (candidate_theory cx1_campaign cx1_proposal) (some cx1_qnm_results)).is_valid ∧
      ((evaluate_constraints cx1_campaign.run_id
          (candidate_theory cx1_campaign cx1_proposal)
          (some cx1_qnm_results)).is_valid = true →
        countEvents step.effects "paper" "ok" = 1 ∧
        countSaves step.effects .paper_builds = 1 ∧
        step.paper_outputs = dictValues (src_collaborators.build
          { run_id := cx1_campaign.run_id
            title := cx1_proposal.name ++ ": Autonomous Modified-Gravity Analysis"
            authors := ["Autonomous Physics AI"]
            output_dir := "artifacts/" ++ cx1_campaign.run_id ++ "/paper/" ++ cx1_proposal.name
            include_latex := true
            include_markdown := true }
          [("method_consistent",
             .bool (compare_methods cx1_qnm_results default_tolerance).is_consistent),
           ("max_abs_delta_real",
             .rat (compare_methods cx1_qnm_results default_tolerance).max_abs_delta_real),
           ("max_abs_delta_imag",
             .rat (compare_methods cx1_qnm_results default_tolerance).max_abs_delta_imag)])) ∧
      ((evaluate_constraints cx1_campaign.run_id
          (candidate_theory cx1_campaign cx1_proposal)
          (some cx1_qnm_results)).is_valid = false →
        countEvents step.effects "constraints" "rejected" = 1 ∧
        step.paper_outputs = [])) :=
  ⟨by decide,
   c1_consensus_not_a_gate src_collaborators cx1_campaign cx1_proposal
     cx1_qnm_results (List.replicate 3 (Effect.save .qnm_runs cx1_campaign.run_id))
     (by decide) (by decide)⟩

/-- C3 (amended): per candidate, the orchestrator writes exactly one
`theories` row and one `derivations` row; a candidate that reaches the QNM
stage writes one `qnm_runs` row per method (three) and one
`constraint_reports` row; an accepted candidate additionally writes one
`novelty_reports` row and one `paper_builds` row; no rows are ever written
to the `background_runs` or `perturb_runs` tables (the perturbation stage
persists only a file artifact); and events are written only for proposal
validation, gate rejections and paper completion — two per candidate, not
one per stage transition. -/
theorem c3_ledger_write_profile (C : Collaborators) (campaign : CampaignSpec)
    (proposal : ProposalSpec) (step : CandidateStep)
    (h : process_candidate C campaign proposal = .ok step) :
    countSaves step.effects .theories = 1 ∧
    countSaves step.effects .derivations = 1 ∧
    countSaves step.effects .background_runs = 0 ∧
    countSaves step.effects .perturb_runs = 0 ∧
    countEvents step.effects "validate" "ok" = 1 ∧
    (step.accepted = true →
      countSaves step.effects .qnm_runs = 3 ∧
      countSaves step.effects .constraint_reports = 1 ∧
      countSaves step.effects .novelty_reports = 1 ∧
      countSaves step.effects .paper_builds = 1 ∧
      countStageArtifacts step.effects "perturb" = 1 ∧
      countEvents step.effects "paper" "ok" = 1 ∧
      countEventRows step.effects = 2) ∧
    (step.accepted = false →
      countSaves step.effects .novelty_reports = 0 ∧
      countSaves step.effects .paper_builds = 0 ∧
      countEventRows step.effects = 2 ∧
      ((countEvents step.effects "background" "rejected" = 1 ∧
        countSaves step.effects .qnm_runs = 0 ∧
        countSaves step.effects .constraint_reports = 0) ∨
       (countEvents step.effects "constraints" "rejected" = 1 ∧
        countSaves step.effects .qnm_runs = 3 ∧
        countSaves step.effects .constraint_reports = 1))) := by
  cases hbg : consistency_square (candidate_background C campaign proposal) with
  | false =>
    rw [process_candidate_bg_rejected C campaign proposal hbg] at h
    simp only [Except.ok.injEq] at h
    rw [← h]
    refine ⟨rfl, rfl, rfl, rfl, rfl, ?_, ?_⟩
    · intro habs
      exact absurd habs (by simp)
    · intro _
      exact ⟨rfl, rfl, rfl, Or.inl ⟨rfl, rfl, rfl⟩⟩
  | true =>
    cases hq : qnm_stage C campaign.run_id (candidate_theory campaign proposal)
        campaign_methods with
    | error e =>
      rw [process_candidate_qnm_error C campaign proposal e hbg hq] at h
      exact Except.noConfusion h
    | ok pr =>
      obtain ⟨qs, qeffs⟩ := pr
      obtain ⟨-, heffs⟩ :=
        qnm_stage_ok_trace C campaign.run_id _ campaign_methods qs qeffs hq
      subst heffs
      cases hc : (evaluate_constraints campaign.run_id
          (candidate_theory campaign proposal) (some qs)).is_valid with
      | false =>
        rw [process_candidate_constraints_rejected C campaign proposal qs _ hbg hq hc]
          at h
        simp only [Except.ok.injEq] at h
        rw [← h]
        refine ⟨rfl, rfl, rfl, rfl, rfl, ?_, ?_⟩
        · intro habs
          exact absurd habs (by simp)
        · intro _
          exact ⟨rfl, rfl, rfl, Or.inr ⟨rfl, rfl, rfl⟩⟩
      | true =>
        rw [process_candidate_accepted C campaign proposal qs _ hbg hq hc] at h
        simp only [Except.ok.injEq] at h
        rw [← h]
        refine ⟨rfl, rfl, rfl, rfl, rfl, ?_, ?_⟩
        · intro _
          exact ⟨rfl, rfl, rfl, rfl, rfl, rfl, rfl⟩
        · intro habs
          exact absurd habs (by simp)

/-- C3 counterexample: in the concrete campaign `cx1_campaign`, the sole
candidate passes the background gate, the perturbation stage runs (its file
artifact is written) and three per-method QNM rows are saved — yet zero rows
are written to the `background_runs` and `perturb_runs` ledger tables, no
event is logged for the derivation, perturbation, QNM or novelty stage
transitions, and the whole campaign writes only four events. -/
theorem c3_counterexample :
    ((run_autonomous_campaign false [] cx1_campaign).toOption.map
      (fun rt =>
        (countSaves rt.2 .background_runs, countSaves rt.2 .perturb_runs,
         countStageArtifacts rt.2 "perturb", countSaves rt.2 .qnm_runs))) =
      some (0, 0, 1, 3) ∧
    ((run_autonomous_campaign false [] cx1_campaign).toOption.map
      (fun rt =>
        (countEventsAtStage rt.2 "derive", countEventsAtStage rt.2 "perturb",
         countEventsAtStage rt.2 "qnm", countEventsAtStage rt.2 "novelty",
         countEventRows rt.2))) =
      some (0, 0, 0, 0, 4) := by decide

/-- The candidate step the pipeline computes for the `cx1` candidate. -/
def c3w_step : CandidateStep :=
  (process_candidate src_collaborators cx1_campaign cx1_proposal).toOption.getD
    ⟨false, [], [], []⟩

theorem c3_witness :
    (process_candidate src_collaborators cx1_campaign cx1_proposal = .ok c3w_step) ∧
    countSaves c3w_step.effects .background_runs = 0 ∧
    countSaves c3w_step.effects .perturb_runs = 0 ∧
    countSaves c3w_step.effects .theories = 1 :=
  ⟨by decide,
   (c3_ledger_write_profile src_collaborators cx1_campaign cx1_proposal c3w_step
     (by decide)).2.2.1,
   (c3_ledger_write_profile src_collaborators cx1_campaign cx1_proposal c3w_step
     (by decide)).2.2.2.1,
   (c3_ledger_write_profile src_collaborators cx1_campaign cx1_proposal c3w_step
     (by decide)).1⟩

/-- Campaign requesting a negative proposal count, which Python slicing turns
into "all but the last" fallback candidates. -/
def cx5_campaign : CampaignSpec :=
  { name := "cx5", run_id := "cx5_run",
    seed_theory := { name := "s5", action := "R", parameters := [] },
    proposal_count := -1, enable_llm := false }

/-- C5 counterexample: with a requested proposal count of `-1`, the
deterministic proposal source yields two candidates (Python `list[:-1]`),
the campaign completes with `accepted + rejected = 2`, and `2` is not at
most the requested count — refuting the bound as stated. -/
theorem c5_counterexample :
    cx5_campaign.proposal_count = -1 ∧
    (proposal_generate cx5_campaign.enable_llm false [] cx5_campaign.seed_theory
      cx5_campaign.proposal_count).length = 2 ∧
    ((run_autonomous_campaign false [] cx5_campaign).toOption.map
      (fun rt => (rt.1.accepted_theories, rt.1.rejected_theories))) = some (2, 0) ∧
    ¬((2 : Int) + 0 ≤ cx5_campaign.proposal_count) := by decide

/-- C5 (amended): for every campaign that completes without an unexpected
failure, `accepted_theories + rejected_theories` equals the number of
candidates produced by the proposal source and both counts are non-negative;
that number is at most the requested proposal count whenever the requested
count is non-negative (a negative count is interpreted by Python slicing and
can exceed it). -/
theorem c5_candidate_accounting (C : Collaborators) (llm_available : Bool)
    (llm_parsed : List ProposalSpec) (campaign : CampaignSpec)
    (res : CampaignResult) (trace : List Effect)
    (h : run_autonomous_campaign_with C llm_available llm_parsed campaign =
      .ok (res, trace)) :
    res.accepted_theories + res.rejected_theories =
      ((proposal_generate campaign.enable_llm llm_available llm_parsed
        campaign.seed_theory campaign.proposal_count).length : Int) ∧
    0 ≤ res.accepted_theories ∧ 0 ≤ res.rejected_theories ∧
    (0 ≤ campaign.proposal_count →
      res.accepted_theories + res.rejected_theories ≤ campaign.proposal_count) := by
  obtain ⟨hsum, ha, hr⟩ :=
    run_campaign_ok_counts C llm_available llm_parsed campaign res trace h
  refine ⟨hsum, ha, hr, ?_⟩
  intro hc
  rw [hsum]
  exact proposal_generate_length_le campaign.enable_llm llm_available llm_parsed
    campaign.seed_theory campaign.proposal_count hc

/-- Three-candidate campaign on a parameter-free seed, used to instantiate
the accounting theorem. -/
def c5w_campaign : CampaignSpec :=
  { name := "c5w", run_id := "c5w_run",
    seed_theory := { name := "s5w", action := "R", parameters := [] },
    proposal_count := 3, enable_llm := false }

/-- The result/trace pair the pipeline computes for `c5w_campaign`. -/
def c5w_out : CampaignResult × List Effect :=
  (run_autonomous_campaign false [] c5w_campaign).toOption.getD
    (⟨"", 0, 0, [], []⟩, [])

theorem c5_witness :
    (run_autonomous_campaign_with src_collaborators false [] c5w_campaign =
      .ok (c5w_out.1, c5w_out.2)) ∧
    (c5w_out.1.accepted_theories + c5w_out.1.rejected_theories =
      ((proposal_generate c5w_campaign.enable_llm false []
        c5w_campaign.seed_theory c5w_campaign.proposal_count).length : Int) ∧
    0 ≤ c5w_out.1.accepted_theories ∧ 0 ≤ c5w_out.1.rejected_theories ∧
    (0 ≤ c5w_campaign.proposal_count →
      c5w_out.1.accepted_theories + c5w_out.1.rejected_theories ≤
        c5w_campaign.proposal_count)) :=
  ⟨by decide,
   c5_candidate_accounting src_collaborators false [] c5w_campaign c5w_out.1
     c5w_out.2 (by decide)⟩

/-- C10: the QNM solver raises `ValueError("mass must be positive")` for a
configuration with `mass ≤ 0`; consequently a candidate that reaches the QNM
stage with resolved mass `parameters.get("mass", 1.0) ≤ 0` makes
`process_candidate` raise, the raise propagates through the candidate loop
(the remaining candidates are never evaluated), and the campaign aborts with
the error instead of counting the candidate as rejected. -/
theorem c10_mass_guard :
    (∀ (l n : Int) (mass : PyRat), mass.le PyRat.zero = true →
      eikonal_seed l n mass = .error "mass must be positive") ∧
    (∀ (campaign : CampaignSpec) (proposal : ProposalSpec),
      consistency_square (candidate_background src_collaborators campaign proposal) = true →
      (dictGetD (candidate_theory campaign proposal).parameters "mass" PyRat.one).le
        PyRat.zero = true →
      process_candidate src_collaborators campaign proposal =
        .error "mass must be positive") ∧
    (∀ (C : Collaborators) (campaign : CampaignSpec) (p : ProposalSpec)
      (ps : List ProposalSpec) (e : String),
      process_candidate C campaign p = .error e →
      run_campaign_loop C campaign (p :: ps) = .error e) ∧
    (∀ (C : Collaborators) (llm_available : Bool) (llm_parsed : List ProposalSpec)
      (campaign : CampaignSpec) (p : ProposalSpec) (ps : List ProposalSpec) (e : String),
      proposal_generate campaign.enable_llm llm_available llm_parsed
        campaign.seed_theory campaign.proposal_count = p :: ps →
      process_candidate C campaign p = .error e →
      run_autonomous_campaign_with C llm_available llm_parsed campaign = .error e) := by
  refine ⟨?_, ?_, ?_, ?_⟩
  · intro l n mass hm
    unfold eikonal_seed
    rw [if_pos hm]
  · intro campaign proposal hbg hm
    have hsolve : src_collaborators.solve
        (loop_config (candidate_theory campaign proposal) .shooting)
        campaign.run_id .shooting = .error "mass must be positive" := by
      show solve_qnm (loop_config (candidate_theory campaign proposal) .shooting)
        campaign.run_id (some .shooting) = .error "mass must be positive"
      unfold solve_qnm loop_config
      have he : eikonal_seed 2 0
          (dictGetD (candidate_theory campaign proposal).parameters "mass" PyRat.one) =
          .error "mass must be positive" := by
        unfold eikonal_seed
        rw [if_pos hm]
      rw [he]
    exact process_candidate_qnm_error src_collaborators campaign proposal _ hbg
      (qnm_stage_error_of_solve_error src_collaborators campaign.run_id _
        .shooting [.wkb, .spectral] _ hsolve)
  · intro C campaign p ps e hp
    exact run_campaign_loop_cons_error C campaign p ps e hp
  · intro C llm_available llm_parsed campaign p ps e hgen hp
    rw [run_autonomous_campaign_with_eq, hgen,
      run_campaign_loop_cons_error C campaign p ps e hp]

/-- Campaign whose seed theory carries `mass = -1`, driving the QNM stage
into the `ValueError` path. -/
def cx10_campaign : CampaignSpec :=
  { name := "cx10", run_id := "cx10_run",
    seed_theory := { name := "s10", action := "R", parameters := [("mass", ⟨-1, 1⟩)] },
    proposal_count := 1, enable_llm := false }

/-- The single proposal the deterministic fallback produces for the `cx10`
seed. -/
def cx10_proposal : ProposalSpec :=
  { name := "s10_alphaR2", action := "R + alpha*R**2",
    parameters := [("alpha", ⟨1, 100⟩)],
    rationale := "Leading quadratic curvature correction." }

theorem c10_witness :
    eikonal_seed 2 0 ⟨-1, 1⟩ = .error "mass must be positive" ∧
    process_candidate src_collaborators cx10_campaign cx10_proposal =
      .error "mass must be positive" ∧
    run_campaign_loop src_collaborators cx10_campaign [cx10_proposal] =
      .error "mass must be positive" ∧
    run_autonomous_campaign_with src_collaborators false [] cx10_campaign =
      .error "mass must be positive" :=
  ⟨c10_mass_guard.1 2 0 ⟨-1, 1⟩ (by decide),
   c10_mass_guard.2.1 cx10_campaign cx10_proposal (by decide) (by decide),
   c10_mass_guard.2.2.1 src_collaborators cx10_campaign cx10_proposal []
     "mass must be positive"
     (c10_mass_guard.2.1 cx10_campaign cx10_proposal (by decide) (by decide)),
   c10_mass_guard.2.2.2 src_collaborators false [] cx10_campaign cx10_proposal []
     "mass must be positive" (by decide)
     (c10_mass_guard.2.1 cx10_campaign cx10_proposal (by decide) (by decide))⟩

/-- C2 (behaviour at the failing input): in the concrete campaign
`cx1_campaign` the sole accepted candidate has method disagreement larger
than the 0.02 tolerance (≈ 0.072), and the merged table records it in the
`method_disagreement_real` / `method_disagreement_imag` columns — but the
returned summary reports `max_disagreement_real = max_disagreement_imag
= 0.0`, because `summarize_scan` reads the columns `disagreement_real` /
`disagreement_imag`, which do not exist in the merged table, and silently
falls back to `0.0`. -/
theorem c2_summary_disagreement_bug :
    default_tolerance.lt
      (compare_methods cx1_qnm_results default_tolerance).max_abs_delta_real = true ∧
    PyRat.zero.lt
      (compare_methods cx1_qnm_results default_tolerance).max_abs_delta_imag = true ∧
    ((run_autonomous_campaign false [] cx1_campaign).toOption.map
      (fun rt =>
        (rt.1.accepted_theories,
         dictGet? rt.1.summary "max_disagreement_real",
         dictGet? rt.1.summary "max_disagreement_imag"))) =
      some (1, some (.rat PyRat.zero), some (.rat PyRat.zero)) ∧
    ((run_autonomous_campaign false [] cx1_campaign).toOption.map
      (fun rt =>
        (dictGet? rt.1.summary "rows", dictGet? rt.1.summary "valid_rows",
         dictGet? rt.1.summary "invalid_rows",
         (dictGet? rt.1.summary "spectrum_file").isSome))) =
      some (some (.int 3), some (.int 3), some (.int 0), true) := by decide
